import Mathlib

/-!
Verification of the java-class-format decoder library.

The Rust sources are shallowly embedded: byte streams become `List Nat`
(one `Nat` per byte) with an explicit cursor position, `binrw`-style
readers become functions `RState → Except RErr (α × RState)`, and the
`nom` text parsers become functions over `List Char`.  Rust panics
(unchecked `Vec` indexing, `try_into().unwrap()`) are modelled as an
explicit `panicked` outcome, distinct from returned errors.
-/

namespace JavaClassFormat

/-- Cursor over a byte slice, as in `std::io::Cursor<&[u8]>`: the bytes and
the current position. -/
structure RState where
  bytes : List Nat
  pos : Nat
deriving Repr, DecidableEq

/-- A borrowed string slice (`&str`), as consumed by the nom parsers.
(Using an abbreviation also keeps the `Char`/`Double`/… constructor names
of the descriptor AST from shadowing the character type.) -/
abbrev Str : Type := List Char

/-- Embeds `ConstantPoolItem` (`raw.rs`): the 16 tagged kinds plus the synthetic
`Skip` padding marker.  `Float`/`Double` keep their raw bit patterns (the
decoder never performs floating-point arithmetic on them). -/
inductive CPItem where
  | Class (name_index : Nat)
  | Fieldref (class_index : Nat) (name_and_type_index : Nat)
  | Methodref (class_index : Nat) (name_and_type_index : Nat)
  | InterfaceMethodref (class_index : Nat) (name_and_type_index : Nat)
  | String (string_index : Nat)
  | Integer (value : Int)
  | Float (bits : Nat)
  | Long (value : Int)
  | Double (bits : Nat)
  | NameAndType (name_index : Nat) (descriptor_index : Nat)
  | Utf8 (value : String)
  | MethodHandle (kind : Nat) (index : Nat)
  | MethodType (descriptor_index : Nat)
  | Dynamic (bootstrap_method_attr_index : Nat) (name_and_type_index : Nat)
  | InvokeDynamic (bootstrap_method_attr_index : Nat) (name_and_type_index : Nat)
  | Module (name_index : Nat)
  | Package (name_index : Nat)
  | Skip
deriving Repr, DecidableEq

/-- The crate error type (`error.rs`): `ConstantPoolError` carries the
expected-variant name and the entry actually found (the Rust code formats
both into the message string); the other variants mirror `Error`. -/
inductive JError where
  | ConstantPoolError (expected : String) (found : CPItem)
  | BinrwError
  | NomError
  | IoError
  | NoBootstrapMethods
  | InvalidBootstrapIndex (idx : Nat)
deriving Repr, DecidableEq

/-- Outcome of a pure (non-stream) operation of the crate: an `Ok` value,
a returned `Err`, or a Rust panic. -/
inductive Outcome (α : Type) where
  | ok (a : α)
  | err (e : JError)
  | panicked
deriving Repr, DecidableEq

/-- The `?` operator on `crate::Result`, with panics propagating. -/
def Outcome.bind {α β : Type} : Outcome α → (α → Outcome β) → Outcome β
  | .ok a, f => f a
  | .err e, _ => .err e
  | .panicked, _ => .panicked

/-- Errors of the binary-reader layer (`binrw::Error` plus panics):
`eof` is a truncated-stream IO error, `badMagic` an unmatched magic,
`assertFail` the pool loop's "Invalid Constant Pool Item" assertion,
`noVariant` a fully failed enum decode, `custom` a wrapped crate error. -/
inductive RErr where
  | eof
  | badMagic (pos : Nat) (found : Nat)
  | assertFail (pos : Nat)
  | noVariant
  | custom (e : JError)
  | panicked
deriving Repr, DecidableEq

/-- A binary reader: `binrw`-style decode over a cursor. -/
def DecM (α : Type) : Type := RState → Except RErr (α × RState)

def DecM.pure {α : Type} (a : α) : DecM α := fun s => .ok (a, s)

def DecM.bind {α β : Type} (m : DecM α) (f : α → DecM β) : DecM β := fun s =>
  match m s with
  | .ok (a, s') => f a s'
  | .error e => .error e

instance : Monad DecM where
  pure := DecM.pure
  bind := DecM.bind

/-- Abort the decode with a `binrw` error or a panic. -/
def dthrow {α : Type} (e : RErr) : DecM α := fun _ => .error e

/-- Embeds `reader.stream_position()`. -/
def curPos : DecM Nat := fun s => .ok (s.pos, s)

/-- Read one byte; a missing byte is a truncated-stream (EOF) error. -/
def readU8 : DecM Nat := fun s =>
  match s.bytes.get? s.pos with
  | some b => .ok (b, ⟨s.bytes, s.pos + 1⟩)
  | none => .error .eof

/-- Big-endian `u16`. -/
def readU16 : DecM Nat := do
  let a ← readU8
  let b ← readU8
  DecM.pure (a * 256 + b)

/-- Big-endian `u32`. -/
def readU32 : DecM Nat := do
  let a ← readU16
  let b ← readU16
  DecM.pure (a * 65536 + b)

/-- Big-endian `u64`. -/
def readU64 : DecM Nat := do
  let a ← readU32
  let b ← readU32
  DecM.pure (a * 4294967296 + b)

/-- Two's-complement reinterpretation of a `w`-bit unsigned value. -/
def toSigned (w : Nat) (v : Nat) : Int :=
  if v < 2 ^ (w - 1) then (v : Int) else (v : Int) - 2 ^ w

def readI8 : DecM Int := do
  let v ← readU8
  DecM.pure (toSigned 8 v)

def readI16 : DecM Int := do
  let v ← readU16
  DecM.pure (toSigned 16 v)

def readI32 : DecM Int := do
  let v ← readU32
  DecM.pure (toSigned 32 v)

def readI64 : DecM Int := do
  let v ← readU64
  DecM.pure (toSigned 64 v)

/-- Embeds `count`-repeated reader (`binrw` `count = n` / `Vec` field). -/
def readVec {α : Type} (n : Nat) (p : DecM α) : DecM (List α) :=
  match n with
  | 0 => DecM.pure []
  | n + 1 => do
    let a ← p
    let rest ← readVec n p
    DecM.pure (a :: rest)

/-- Embeds `read_exact` into a buffer of `n` bytes. -/
def readExact (n : Nat) : DecM (List Nat) := readVec n readU8

/-- Embeds `reader.seek(SeekFrom::Current(n))` for a non-negative distance; a
`Cursor` allows seeking past the end of the data. -/
def seekForward (n : Nat) : DecM Unit := fun s => .ok ((), ⟨s.bytes, s.pos + n⟩)

/-- Embeds `BytePad::read_options` (`instruction.rs`): if the cursor position is
not a multiple of 4, skip `4 - pos % 4` bytes; positions are measured from
the start of the stream, which for instruction decoding is the start of the
method's code array. -/
def bytePad : DecM Unit := do
  let pos ← curPos
  let d4 := pos % 4
  if d4 = 0 then DecM.pure () else seekForward (4 - d4)

/-! ## Typed index resolution (the `index_ty!` macro of `raw.rs`)

Each resolver embeds `match &cpool.0[self.0 as usize - 1] { ... }`.  The
`Vec` indexing is not bounds-checked as a `Result`: for index 0 the `usize`
subtraction wraps (or overflows) and for an index at or past the end the
indexing panics, so both cases are modelled as `panicked`. -/

/-- Embeds `Utf8Index::get_as_string_impl`. -/
def Utf8Index.get_as_string_impl (cpool : List CPItem) (i : Nat) : Outcome String :=
  if h : 1 ≤ i ∧ i - 1 < cpool.length then
    match cpool.get ⟨i - 1, h.2⟩ with
    | .Utf8 v => .ok v
    | x => .err (.ConstantPoolError "Utf8" x)
  else .panicked

/-- Embeds `ClassIndex::get_as_string_impl`: resolves the nested `name_index`
through `Utf8Index`. -/
def ClassIndex.get_as_string_impl (cpool : List CPItem) (i : Nat) : Outcome String :=
  if h : 1 ≤ i ∧ i - 1 < cpool.length then
    match cpool.get ⟨i - 1, h.2⟩ with
    | .Class name_index => Utf8Index.get_as_string_impl cpool name_index
    | x => .err (.ConstantPoolError "Class" x)
  else .panicked

/-- Embeds `NameAndTypeIndex::get_as_string_impl`: resolves the nested
`name_index` through `Utf8Index`. -/
def NameAndTypeIndex.get_as_string_impl (cpool : List CPItem) (i : Nat) : Outcome String :=
  if h : 1 ≤ i ∧ i - 1 < cpool.length then
    match cpool.get ⟨i - 1, h.2⟩ with
    | .NameAndType name_index _ => Utf8Index.get_as_string_impl cpool name_index
    | x => .err (.ConstantPoolError "NameAndType" x)
  else .panicked

/-- Embeds `MethodHandleIndex::get_as_string_impl`: returns `""` on a
`MethodHandle` entry. -/
def MethodHandleIndex.get_as_string_impl (cpool : List CPItem) (i : Nat) : Outcome String :=
  if h : 1 ≤ i ∧ i - 1 < cpool.length then
    match cpool.get ⟨i - 1, h.2⟩ with
    | .MethodHandle _ _ => .ok ""
    | x => .err (.ConstantPoolError "MethodHandle" x)
  else .panicked

/-- Modelled from the spec: `NameAndTypeIndex::get_name` is absent from
`src/` (only its callers in `instruction.rs` are); per §4.2 composite
indices resolve transitively through nested Utf8 indices, in the style of
the sibling `index_ty!` resolvers. -/
def NameAndTypeIndex.get_name (cpool : List CPItem) (i : Nat) : Outcome String :=
  if h : 1 ≤ i ∧ i - 1 < cpool.length then
    match cpool.get ⟨i - 1, h.2⟩ with
    | .NameAndType name_index _ => Utf8Index.get_as_string_impl cpool name_index
    | x => .err (.ConstantPoolError "NameAndType" x)
  else .panicked

/-- Modelled from the spec: `NameAndTypeIndex::get_descriptor`, the
descriptor half of the transitive resolution of §4.2. -/
def NameAndTypeIndex.get_descriptor (cpool : List CPItem) (i : Nat) : Outcome String :=
  if h : 1 ≤ i ∧ i - 1 < cpool.length then
    match cpool.get ⟨i - 1, h.2⟩ with
    | .NameAndType _ descriptor_index => Utf8Index.get_as_string_impl cpool descriptor_index
    | x => .err (.ConstantPoolError "NameAndType" x)
  else .panicked

/-! ## ConstantValue accessors (`attributes.rs` 30–82)

Each accessor indexes `constant_pool.0[constantvalue_index - 1]` with the
same unchecked pattern and then variant-checks. -/

/-- Embeds `ConstantValue::int_value`. -/
def ConstantValue.int_value (cpool : List CPItem) (i : Nat) : Outcome Int :=
  if h : 1 ≤ i ∧ i - 1 < cpool.length then
    match cpool.get ⟨i - 1, h.2⟩ with
    | .Integer v => .ok v
    | x => .err (.ConstantPoolError "Integer" x)
  else .panicked

/-- Embeds `ConstantValue::float_value` (raw bits). -/
def ConstantValue.float_value (cpool : List CPItem) (i : Nat) : Outcome Nat :=
  if h : 1 ≤ i ∧ i - 1 < cpool.length then
    match cpool.get ⟨i - 1, h.2⟩ with
    | .Float v => .ok v
    | x => .err (.ConstantPoolError "Float" x)
  else .panicked

/-- Embeds `ConstantValue::long_value`. -/
def ConstantValue.long_value (cpool : List CPItem) (i : Nat) : Outcome Int :=
  if h : 1 ≤ i ∧ i - 1 < cpool.length then
    match cpool.get ⟨i - 1, h.2⟩ with
    | .Long v => .ok v
    | x => .err (.ConstantPoolError "Long" x)
  else .panicked

/-- Embeds `ConstantValue::double_value` (raw bits). -/
def ConstantValue.double_value (cpool : List CPItem) (i : Nat) : Outcome Nat :=
  if h : 1 ≤ i ∧ i - 1 < cpool.length then
    match cpool.get ⟨i - 1, h.2⟩ with
    | .Double v => .ok v
    | x => .err (.ConstantPoolError "Double" x)
  else .panicked

/-- Embeds `ConstantValue::string_value`: resolves the nested `string_index`. -/
def ConstantValue.string_value (cpool : List CPItem) (i : Nat) : Outcome String :=
  if h : 1 ≤ i ∧ i - 1 < cpool.length then
    match cpool.get ⟨i - 1, h.2⟩ with
    | .String string_index => Utf8Index.get_as_string_impl cpool string_index
    | x => .err (.ConstantPoolError "String" x)
  else .panicked

/-! ## UTF-8 validation (`String::from_utf8` on the Utf8 entry payload) -/

/-- A UTF-8 continuation byte. -/
def utf8IsCont (b : Nat) : Prop := 128 ≤ b ∧ b ≤ 191

instance (b : Nat) : Decidable (utf8IsCont b) := by
  unfold utf8IsCont; infer_instance

/-- Standard UTF-8 decoding (as validated by `String::from_utf8`):
`none` on any ill-formed sequence (overlongs, surrogates and values past
U+10FFFF are excluded by the lead-byte ranges). -/
def utf8DecodeAux : Nat → List Nat → List Char → Option (List Char)
  | _, [], acc => some acc.reverse
  | 0, _ :: _, _ => none
  | fuel + 1, b :: rest, acc =>
    if b ≤ 0x7F then utf8DecodeAux fuel rest (Char.ofNat b :: acc)
    else if 0xC2 ≤ b ∧ b ≤ 0xDF then
      match rest with
      | c1 :: rest' =>
        if utf8IsCont c1 then
          utf8DecodeAux fuel rest' (Char.ofNat ((b - 0xC0) * 64 + (c1 - 0x80)) :: acc)
        else none
      | [] => none
    else if 0xE0 ≤ b ∧ b ≤ 0xEF then
      match rest with
      | c1 :: c2 :: rest' =>
        let lo1 := if b = 0xE0 then 0xA0 else 0x80
        let hi1 := if b = 0xED then 0x9F else 0xBF
        if (lo1 ≤ c1 ∧ c1 ≤ hi1) ∧ utf8IsCont c2 then
          utf8DecodeAux fuel rest'
            (Char.ofNat ((b - 0xE0) * 4096 + (c1 - 0x80) * 64 + (c2 - 0x80)) :: acc)
        else none
      | _ => none
    else if 0xF0 ≤ b ∧ b ≤ 0xF4 then
      match rest with
      | c1 :: c2 :: c3 :: rest' =>
        let lo1 := if b = 0xF0 then 0x90 else 0x80
        let hi1 := if b = 0xF4 then 0x8F else 0xBF
        if (lo1 ≤ c1 ∧ c1 ≤ hi1) ∧ utf8IsCont c2 ∧ utf8IsCont c3 then
          utf8DecodeAux fuel rest'
            (Char.ofNat ((b - 0xF0) * 262144 + (c1 - 0x80) * 4096 +
              (c2 - 0x80) * 64 + (c3 - 0x80)) :: acc)
        else none
      | _ => none
    else none

/-- Decode a byte list as UTF-8, or `none` when invalid. -/
def utf8Decode? (bs : List Nat) : Option String :=
  (utf8DecodeAux (bs.length + 1) bs []).map fun cs => String.mk cs

/-! ## Constant pool decoding (`ConstantPool::read_options`, `raw.rs` 23–58) -/

/-- One attempt at the magic-tagged `ConstantPoolItem` variants.  `binrw`
tries the variants in declaration order, rewinding between attempts; the
magic bytes are pairwise distinct, so this is a dispatch on the tag byte;
any failure (unknown tag, truncated payload, invalid UTF-8) is an error of
the tagged attempt. -/
def readCPItemTagged : DecM CPItem := do
  let tag ← readU8
  if tag = 7 then do let n ← readU16; DecM.pure (.Class n)
  else if tag = 9 then do
    let c ← readU16; let t ← readU16; DecM.pure (.Fieldref c t)
  else if tag = 10 then do
    let c ← readU16; let t ← readU16; DecM.pure (.Methodref c t)
  else if tag = 11 then do
    let c ← readU16; let t ← readU16; DecM.pure (.InterfaceMethodref c t)
  else if tag = 8 then do let n ← readU16; DecM.pure (.String n)
  else if tag = 3 then do let v ← readI32; DecM.pure (.Integer v)
  else if tag = 4 then do let v ← readU32; DecM.pure (.Float v)
  else if tag = 5 then do let v ← readI64; DecM.pure (.Long v)
  else if tag = 6 then do let v ← readU64; DecM.pure (.Double v)
  else if tag = 12 then do
    let n ← readU16; let d ← readU16; DecM.pure (.NameAndType n d)
  else if tag = 1 then do
    let len ← readU16
    let bs ← readExact len
    match utf8Decode? bs with
    | some s => DecM.pure (.Utf8 s)
    | none => dthrow (.custom .BinrwError)
  else if tag = 15 then do
    let k ← readU8; let i ← readU16; DecM.pure (.MethodHandle k i)
  else if tag = 16 then do let d ← readU16; DecM.pure (.MethodType d)
  else if tag = 17 then do
    let b ← readU16; let t ← readU16; DecM.pure (.Dynamic b t)
  else if tag = 18 then do
    let b ← readU16; let t ← readU16; DecM.pure (.InvokeDynamic b t)
  else if tag = 19 then do let n ← readU16; DecM.pure (.Module n)
  else if tag = 20 then do let n ← readU16; DecM.pure (.Package n)
  else dthrow .noVariant

/-- Embeds `ConstantPoolItem::read` (derived): the final `Skip` variant carries no
magic and no fields, so when every tagged variant fails, the decode
succeeds as `Skip` with the reader rewound to the original position. -/
def readCPItem : DecM CPItem := fun s =>
  match readCPItemTagged s with
  | .ok r => .ok r
  | .error _ => .ok (.Skip, s)

/-- A `Long` or `Double` entry, occupying two logical slots. -/
def CPItem.isWide : CPItem → Bool
  | .Long _ | .Double _ => true
  | _ => false

/-- The entry loop of `ConstantPool::read_options`: starting at logical
index 1, read entries until the index reaches the declared count; a `Long`
or `Double` bumps the index by 2 and pushes one `Skip` placeholder; a
decoded `Skip` (i.e. any failed item decode) raises the fatal
"Invalid Constant Pool Item" assertion.  `fuel` only guards the recursion
(`count + 1` always suffices since the index strictly increases). -/
def cpoolLoop (fuel count i : Nat) (acc : List CPItem) : DecM (List CPItem) :=
  match fuel with
  | 0 => dthrow .eof
  | fuel + 1 =>
    if count ≤ i then DecM.pure acc
    else do
      let pos ← curPos
      let item ← readCPItem
      match item with
      | .Skip => dthrow (.assertFail pos)
      | _ =>
        if item.isWide then
          cpoolLoop fuel count (i + 2) (acc ++ [item, .Skip])
        else
          cpoolLoop fuel count (i + 1) (acc ++ [item])

/-- Embeds `ConstantPool::read_options`: the declared count followed by the entry
loop. -/
def readConstantPool : DecM (List CPItem) := do
  let count ← readU16
  cpoolLoop (count + 1) count 1 []

/-! ## Attribute container (`Attributes::read_options`, `raw.rs` 249–271) -/

/-- The attribute-name resolution including the `.unwrap_or("")`: a
`ConstantPoolError` is swallowed into the empty name, while a panic of the
unchecked pool lookup still propagates (`none`). -/
def attrName (cpool : List CPItem) (i : Nat) : Option String :=
  match Utf8Index.get_as_string_impl cpool i with
  | .ok v => some v
  | .err _ => some ""
  | .panicked => none

/-- One `(name index, length, bytes)` attribute record. -/
def readAttrOne (cpool : List CPItem) : DecM (String × List Nat) := do
  let idx ← readU16
  match attrName cpool idx with
  | none => dthrow .panicked
  | some name => do
    let len ← readU32
    let info ← readExact len
    DecM.pure (name, info)

/-- Embeds `Attributes::read_options`: a count-prefixed list of records collected
into a name-keyed map (kept here in read order; `Attributes.get` applies
the `HashMap` last-insert-wins lookup). -/
def readAttributes (cpool : List CPItem) : DecM (List (String × List Nat)) := do
  let count ← readU16
  readVec count (readAttrOne cpool)

/-- Embeds `HashMap` lookup over the collected records: the last record with the
given name wins (later inserts overwrite earlier ones). -/
def Attributes.get (attrs : List (String × List Nat)) (name : String) :
    Option (List Nat) :=
  ((attrs.filter fun p => p.1 == name).getLast?).map fun p => p.2

/-! ## Field, method and class-file records (`raw.rs`, `lib.rs`) -/

/-- Embeds `FieldAccessFlags::from_bits_truncate`: unknown bits are dropped. -/
def fieldFlagsTruncate (x : Nat) : Nat := Nat.land x 0x50DF

/-- Embeds `MethodAccessFlags::from_bits_truncate`. -/
def methodFlagsTruncate (x : Nat) : Nat := Nat.land x 0xD1FF

/-- Embeds `ClassAccessFlags::from_bits_truncate`. -/
def classFlagsTruncate (x : Nat) : Nat := Nat.land x 0xF631

/-- Embeds `FieldRaw` (`raw.rs` 202–209). -/
structure FieldRaw where
  access_flags : Nat
  name_index : Nat
  descriptor_index : Nat
  attributes : List (String × List Nat)
deriving Repr, DecidableEq

/-- Embeds `MethodRaw` (`raw.rs` 232–239). -/
structure MethodRaw where
  access_flags : Nat
  name_index : Nat
  descriptor_index : Nat
  attributes : List (String × List Nat)
deriving Repr, DecidableEq

def readFieldRaw (cpool : List CPItem) : DecM FieldRaw := do
  let flags ← readU16
  let n ← readU16
  let d ← readU16
  let attrs ← readAttributes cpool
  DecM.pure ⟨fieldFlagsTruncate flags, n, d, attrs⟩

def readMethodRaw (cpool : List CPItem) : DecM MethodRaw := do
  let flags ← readU16
  let n ← readU16
  let d ← readU16
  let attrs ← readAttributes cpool
  DecM.pure ⟨methodFlagsTruncate flags, n, d, attrs⟩

/-- Embeds `ClassFile` (`lib.rs` 29–53): the decoded top-level record; the
constant pool and the class-level attribute table are what the resolution
operations consume. -/
structure ClassFile where
  minor_version : Nat
  major_version : Nat
  constant_pool : List CPItem
  access_flags : Nat
  this_class : Nat
  super_class : Nat
  interfaces : List Nat
  fields : List FieldRaw
  methods : List MethodRaw
  attributes : List (String × List Nat)
deriving Repr, DecidableEq

/-- Embeds `ClassFile::read` (`lib.rs`): magic `0xCAFEBABE`, versions, constant
pool, flags, this/super class, interfaces, fields, methods, class
attributes, all big-endian. -/
def readClassFile : DecM ClassFile := do
  let m ← readU32
  if m ≠ 0xCAFEBABE then dthrow (.badMagic 0 m)
  else do
    let minor ← readU16
    let major ← readU16
    let cpool ← readConstantPool
    let flags ← readU16
    let this_class ← readU16
    let super_class ← readU16
    let icount ← readU16
    let interfaces ← readVec icount readU16
    let fcount ← readU16
    let fields ← readVec fcount (readFieldRaw cpool)
    let mcount ← readU16
    let methods ← readVec mcount (readMethodRaw cpool)
    let attrs ← readAttributes cpool
    DecM.pure ⟨minor, major, cpool, classFlagsTruncate flags, this_class,
      super_class, interfaces, fields, methods, attrs⟩

/-! ## nom-style text parsing

The descriptor and signature grammars (`field.rs`, `method.rs`,
`signature.rs`) are recursive-descent `nom` parsers over `&str`; here a
parser maps a `Str` to either a grammar error or the pair of the
remaining input and the parsed value (nom's `IResult`). -/

/-- nom `IResult`: grammar error, or remaining input with the value. -/
def NomRes (α : Type) : Type := Except Unit (Str × α)

/-- nom `alt` between two alternatives. -/
def orElseR {α : Type} (a b : NomRes α) : NomRes α :=
  match a with
  | .ok r => .ok r
  | .error _ => b

/-- nom `map`. -/
def mapR {α β : Type} (f : α → β) (a : NomRes α) : NomRes β :=
  match a with
  | .ok (rest, x) => .ok (rest, f x)
  | .error _ => .error ()

/-- nom `character::complete::char`. -/
def charP (c : Char) (input : Str) : NomRes Char :=
  match input with
  | x :: rest => if x = c then .ok (rest, c) else .error ()
  | [] => .error ()

/-- nom `bytes::complete::tag`. -/
def tagP (t : Str) (input : Str) : NomRes (Str) :=
  match t with
  | [] => .ok (input, [])
  | c :: t' =>
    match input with
    | x :: rest =>
      if x = c then mapR (fun m => c :: m) (tagP t' rest) else .error ()
    | [] => .error ()

/-- nom `bytes::complete::is_a`: the longest nonempty prefix of characters
from the set. -/
def isAP (set : Str) (input : Str) : NomRes (Str) :=
  let taken := input.takeWhile fun c => set.contains c
  if taken.isEmpty then .error ()
  else .ok (input.drop taken.length, taken)

/-- nom `bytes::complete::is_not`: the longest nonempty prefix of
characters outside the set. -/
def isNotP (set : Str) (input : Str) : NomRes (Str) :=
  let taken := input.takeWhile fun c => !(set.contains c)
  if taken.isEmpty then .error ()
  else .ok (input.drop taken.length, taken)

/-- nom `delimited(char(l), p, char(r))`. -/
def delimited1 {α : Type} (l : Char) (p : Str → NomRes α) (r : Char)
    (input : Str) : NomRes α :=
  match charP l input with
  | .error _ => .error ()
  | .ok (i1, _) =>
    match p i1 with
    | .error _ => .error ()
    | .ok (i2, a) =>
      match charP r i2 with
      | .error _ => .error ()
      | .ok (i3, _) => .ok (i3, a)

/-- nom `preceded(char(l), p)`. -/
def preceded1 {α : Type} (l : Char) (p : Str → NomRes α)
    (input : Str) : NomRes α :=
  match charP l input with
  | .error _ => .error ()
  | .ok (i1, _) => p i1

/-- nom `terminated(p, char(r))`. -/
def terminated1 {α : Type} (p : Str → NomRes α) (r : Char)
    (input : Str) : NomRes α :=
  match p input with
  | .error _ => .error ()
  | .ok (i1, a) =>
    match charP r i1 with
    | .error _ => .error ()
    | .ok (i2, _) => .ok (i2, a)

/-- nom `many0`: collect until the parser fails; succeeding without
consuming input is nom's infinite-loop guard and is a hard error.  `fuel`
only bounds the recursion (input length + 1 always suffices since every
kept iteration consumes). -/
def many0F {α : Type} (p : Str → NomRes α) :
    Nat → Str → NomRes (List α)
  | 0, _ => .error ()
  | fuel + 1, input =>
    match p input with
    | .error _ => .ok (input, [])
    | .ok (rest, a) =>
      if rest.length = input.length then .error ()
      else
        match many0F p fuel rest with
        | .ok (r2, xs) => .ok (r2, a :: xs)
        | .error _ => .error ()

/-- nom `many1`: like `many0` but the first parse must succeed. -/
def many1F {α : Type} (p : Str → NomRes α) (fuel : Nat)
    (input : Str) : NomRes (List α) :=
  match p input with
  | .error _ => .error ()
  | .ok (rest, a) =>
    if rest.length = input.length then .error ()
    else
      match many0F p fuel rest with
      | .ok (r2, xs) => .ok (r2, a :: xs)
      | .error _ => .error ()

/-- The identifier character set of `signature.rs`. -/
def identChars : Str :=
  "abcdefghijklmnopqrstuvwxyzABCDEFGHIJKLMNOPQRSTUVWXYZ0123456789_".toList

/-- Embeds `signature.rs` `identifier`: `is_a` over the identifier set. -/
def identifier (input : Str) : NomRes (Str) := isAP identChars input

/-! ## Field/method descriptors (`field.rs`, `method.rs`) -/

/-- Embeds `TypeDescriptor` (`field.rs`). -/
inductive TypeDescriptor where
  | Byte
  | Char
  | Double
  | Float
  | Int
  | Long
  | Short
  | Boolean
  | String
  | Class
  | Array (t : TypeDescriptor)
  | ClassName (name : Str)
deriving Repr, DecidableEq

/-- Embeds `TypeDescriptor::parse`: the `alt` chain of `field.rs` 25–44, with the
two hard-coded fast paths before the general `L<name>;` rule and the
`[`-array rule recursing on the element type. -/
def TypeDescriptor.parseF (fuel : Nat) (input : Str) :
    NomRes TypeDescriptor :=
  match fuel with
  | 0 => .error ()
  | fuel + 1 =>
    orElseR (mapR (fun _ => TypeDescriptor.Byte) (charP 'B' input))
    (orElseR (mapR (fun _ => TypeDescriptor.Char) (charP 'C' input))
    (orElseR (mapR (fun _ => TypeDescriptor.Double) (charP 'D' input))
    (orElseR (mapR (fun _ => TypeDescriptor.Float) (charP 'F' input))
    (orElseR (mapR (fun _ => TypeDescriptor.Int) (charP 'I' input))
    (orElseR (mapR (fun _ => TypeDescriptor.Long) (charP 'J' input))
    (orElseR (mapR (fun _ => TypeDescriptor.Short) (charP 'S' input))
    (orElseR (mapR (fun _ => TypeDescriptor.Boolean) (charP 'Z' input))
    (orElseR (mapR (fun _ => TypeDescriptor.String)
        (tagP "Ljava/lang/String;".toList input))
    (orElseR (mapR (fun _ => TypeDescriptor.Class)
        (tagP "Ljava/lang/Class;".toList input))
    (orElseR (mapR (fun x => TypeDescriptor.ClassName x)
        (delimited1 'L' (isNotP [';']) ';' input))
    (mapR (fun x => TypeDescriptor.Array x)
      (match charP '[' input with
       | .ok (rest, _) => TypeDescriptor.parseF fuel rest
       | .error _ => .error ()))))))))))))

/-- Embeds `TypeDescriptor::parse` entry point (fuel is an artifact; the array
rule consumes one `[` per recursion step). -/
def TypeDescriptor.parse (input : Str) : NomRes TypeDescriptor :=
  TypeDescriptor.parseF (input.length + 1) input

/-- Embeds `MethodDescriptor` (`method.rs`). -/
structure MethodDescriptor where
  param_tys : List TypeDescriptor
  return_ty : Option TypeDescriptor
deriving Repr, DecidableEq

/-- Embeds `MethodDescriptor::parse`: `(` params `)` then `V` or a return type. -/
def MethodDescriptor.parse (input : Str) : NomRes MethodDescriptor :=
  match charP '(' input with
  | .error _ => .error ()
  | .ok (i1, _) =>
    match many0F TypeDescriptor.parse (i1.length + 1) i1 with
    | .error _ => .error ()
    | .ok (i2, param_tys) =>
      match charP ')' i2 with
      | .error _ => .error ()
      | .ok (i3, _) =>
        match orElseR (mapR (fun _ => (none : Option TypeDescriptor)) (charP 'V' i3))
            (mapR (fun x => some x) (TypeDescriptor.parse i3)) with
        | .error _ => .error ()
        | .ok (i4, return_ty) => .ok (i4, ⟨param_tys, return_ty⟩)

/-! ## Generic signature grammar (`signature.rs`) -/

/-- Embeds `BaseType` (`signature.rs`). -/
inductive BaseType where
  | Byte
  | Char
  | Double
  | Float
  | Int
  | Long
  | Short
  | Boolean
deriving Repr, DecidableEq

/-- Embeds `BaseType::parse`. -/
def BaseType.parse (input : Str) : NomRes BaseType :=
  orElseR (mapR (fun _ => BaseType.Byte) (charP 'B' input))
  (orElseR (mapR (fun _ => BaseType.Char) (charP 'C' input))
  (orElseR (mapR (fun _ => BaseType.Double) (charP 'D' input))
  (orElseR (mapR (fun _ => BaseType.Float) (charP 'F' input))
  (orElseR (mapR (fun _ => BaseType.Int) (charP 'I' input))
  (orElseR (mapR (fun _ => BaseType.Long) (charP 'J' input))
  (orElseR (mapR (fun _ => BaseType.Short) (charP 'S' input))
  (mapR (fun _ => BaseType.Boolean) (charP 'Z' input))))))))

mutual

/-- Embeds `JavaType` (`signature.rs`). -/
inductive JavaType where
  | Base (b : BaseType)
  | Reference (r : ReferenceType)

/-- Embeds `ReferenceType` (`signature.rs`). -/
inductive ReferenceType where
  | JavaString
  | JavaClass
  | ClassType (c : ClassType)
  | TypeVariable (name : Str)
  | ArrayType (t : JavaType)

/-- Embeds `TypeArgument` (`signature.rs`): only `+`/`-`-annotated references and
the `*` wildcard — the enum has no invariant (bare reference) variant. -/
inductive TypeArgument where
  | Plus (r : ReferenceType)
  | Minus (r : ReferenceType)
  | Star

/-- Embeds `SimpleClassType` (`signature.rs`). -/
inductive SimpleClassType where
  | mk (name : Str) (type_arguments : List TypeArgument)

/-- Embeds `ClassType` (`signature.rs`). -/
inductive ClassType where
  | mk (package : List (Str)) (base : SimpleClassType)
      (sub : List SimpleClassType)

end

mutual

/-- Embeds `JavaType::parse`: reference types first, base types second. -/
def JavaType.parseF (fuel : Nat) (input : Str) : NomRes JavaType :=
  match fuel with
  | 0 => .error ()
  | fuel + 1 =>
    orElseR (mapR (fun r => JavaType.Reference r) (ReferenceType.parseF fuel input))
      (mapR (fun b => JavaType.Base b) (BaseType.parse input))

/-- Embeds `ReferenceType::parse`: the `alt` chain of `signature.rs` 63–75. -/
def ReferenceType.parseF (fuel : Nat) (input : Str) :
    NomRes ReferenceType :=
  match fuel with
  | 0 => .error ()
  | fuel + 1 =>
    orElseR (mapR (fun _ => ReferenceType.JavaString)
        (tagP "Ljava/lang/String;".toList input))
    (orElseR (mapR (fun _ => ReferenceType.JavaClass)
        (tagP "Ljava/lang/Class;".toList input))
    (orElseR (mapR (fun c => ReferenceType.ClassType c)
        (ClassType.parseF fuel input))
    (orElseR (mapR (fun n => ReferenceType.TypeVariable n)
        (delimited1 'T' identifier ';' input))
    (mapR (fun t => ReferenceType.ArrayType t)
      (match charP '[' input with
       | .ok (rest, _) => JavaType.parseF fuel rest
       | .error _ => .error ())))))

/-- Embeds `TypeArgument::parse` (`signature.rs` 85–95): `+`-annotated,
`-`-annotated, or `*` — nothing else. -/
def TypeArgument.parseF (fuel : Nat) (input : Str) :
    NomRes TypeArgument :=
  match fuel with
  | 0 => .error ()
  | fuel + 1 =>
    orElseR (mapR (fun r => TypeArgument.Plus r)
      (match charP '+' input with
       | .ok (rest, _) => ReferenceType.parseF fuel rest
       | .error _ => .error ()))
    (orElseR (mapR (fun r => TypeArgument.Minus r)
      (match charP '-' input with
       | .ok (rest, _) => ReferenceType.parseF fuel rest
       | .error _ => .error ()))
    (mapR (fun _ => TypeArgument.Star) (charP '*' input)))

/-- Embeds `SimpleClassType::parse` (`signature.rs` 103–118): an identifier with
an optional `<` many1 type-argument `>` suffix; a failed optional suffix
backtracks wholly (`opt`). -/
def SimpleClassType.parseF (fuel : Nat) (input : Str) :
    NomRes SimpleClassType :=
  match fuel with
  | 0 => .error ()
  | fuel + 1 =>
    match identifier input with
    | .error _ => .error ()
    | .ok (i1, name) =>
      match charP '<' i1 with
      | .error _ => .ok (i1, SimpleClassType.mk name [])
      | .ok (i2, _) =>
        match many1F (TypeArgument.parseF fuel) (i2.length + 1) i2 with
        | .error _ => .ok (i1, SimpleClassType.mk name [])
        | .ok (i3, args) =>
          match charP '>' i3 with
          | .error _ => .ok (i1, SimpleClassType.mk name [])
          | .ok (i4, _) => .ok (i4, SimpleClassType.mk name args)

/-- Embeds `ClassType::parse` (`signature.rs` 127–140): `L`, many0 of
slash-terminated package identifiers, the base simple class type, many0 of
`.`-prefixed nested simple class types, `;`. -/
def ClassType.parseF (fuel : Nat) (input : Str) : NomRes ClassType :=
  match fuel with
  | 0 => .error ()
  | fuel + 1 =>
    match charP 'L' input with
    | .error _ => .error ()
    | .ok (i1, _) =>
      match many0F (fun s => terminated1 identifier '/' s) (i1.length + 1) i1 with
      | .error _ => .error ()
      | .ok (i2, package) =>
        match SimpleClassType.parseF fuel i2 with
        | .error _ => .error ()
        | .ok (i3, base) =>
          match many0F (fun s => preceded1 '.' (SimpleClassType.parseF fuel) s)
              (i3.length + 1) i3 with
          | .error _ => .error ()
          | .ok (i4, sub) =>
            match charP ';' i4 with
            | .error _ => .error ()
            | .ok (i5, _) => .ok (i5, ClassType.mk package base sub)

end

/-- Embeds `ReferenceType::parse` entry point, with fuel ample for the input (the
mutual recursion consumes at least one character every four fuel steps). -/
def ReferenceType.parse (input : Str) : NomRes ReferenceType :=
  ReferenceType.parseF (4 * input.length + 4) input

/-- Embeds `TypeArgument::parse` entry point. -/
def TypeArgument.parse (input : Str) : NomRes TypeArgument :=
  TypeArgument.parseF (4 * input.length + 4) input

/-! ## Resolved instruction operands (`instruction.rs` 7–220) -/

/-- Embeds `FieldRef` (the Rust field `class` is reserved in Lean). -/
structure FieldRef where
  class_name : String
  name : String
  descriptor : TypeDescriptor
deriving Repr, DecidableEq

/-- Embeds `MethodRef`. -/
structure MethodRef where
  class_name : String
  name : String
  descriptor : MethodDescriptor
deriving Repr, DecidableEq

/-- Embeds `InterfaceMethodRef`. -/
structure InterfaceMethodRef where
  class_name : String
  name : String
  descriptor : MethodDescriptor
deriving Repr, DecidableEq

/-- Embeds `MaybeInterfaceMethodRef`. -/
inductive MaybeInterfaceMethodRef where
  | RegularMethod (m : MethodRef)
  | InterfaceMethod (m : InterfaceMethodRef)
deriving Repr, DecidableEq

/-- Embeds `MethodHandle` (`instruction.rs` 148–158). -/
inductive MethodHandle where
  | GetField (f : FieldRef)
  | GetStatic (f : FieldRef)
  | PutField (f : FieldRef)
  | PutStatic (f : FieldRef)
  | InvokeVirtual (m : MethodRef)
  | NewInvokeSpecial (m : MethodRef)
  | InvokeStatic (m : MaybeInterfaceMethodRef)
  | InvokeSpecial (m : MaybeInterfaceMethodRef)
  | InvokeInterface (m : InterfaceMethodRef)
deriving Repr, DecidableEq

/-- Embeds `BootstrapMethodRaw` (`attributes.rs` 561–568). -/
structure BootstrapMethodRaw where
  bootstrap_method_ref : Nat
  bootstrap_args : List Nat
deriving Repr, DecidableEq

/-- Embeds `BootstrapMethod` (`attributes.rs` 570–574): the resolved handle (the
argument list is left unparsed by the source). -/
structure BootstrapMethod where
  method : MethodHandle
deriving Repr, DecidableEq

/-- Embeds `DynamicInfo` (`instruction.rs` 185–190). -/
structure DynamicInfo where
  bootstrap_method : BootstrapMethod
  name : String
  descriptor : MethodDescriptor
deriving Repr, DecidableEq

/-- Embeds `FieldRef::from_u16`: unchecked pool lookup, variant check, then
transitive resolution of class, name and parsed type descriptor. -/
def FieldRef.from_u16 (index : Nat) (cf : ClassFile) : Outcome FieldRef :=
  if h : 1 ≤ index ∧ index - 1 < cf.constant_pool.length then
    match cf.constant_pool.get ⟨index - 1, h.2⟩ with
    | .Fieldref class_index name_and_type_index =>
      (ClassIndex.get_as_string_impl cf.constant_pool class_index).bind fun cls =>
      (NameAndTypeIndex.get_name cf.constant_pool name_and_type_index).bind fun nm =>
      (NameAndTypeIndex.get_descriptor cf.constant_pool name_and_type_index).bind
        fun d =>
      match TypeDescriptor.parse d.toList with
      | .ok (_, td) => .ok ⟨cls, nm, td⟩
      | .error _ => .err .NomError
    | x => .err (.ConstantPoolError "Fieldref" x)
  else .panicked

/-- Embeds `MethodRef::from_u16`. -/
def MethodRef.from_u16 (index : Nat) (cf : ClassFile) : Outcome MethodRef :=
  if h : 1 ≤ index ∧ index - 1 < cf.constant_pool.length then
    match cf.constant_pool.get ⟨index - 1, h.2⟩ with
    | .Methodref class_index name_and_type_index =>
      (ClassIndex.get_as_string_impl cf.constant_pool class_index).bind fun cls =>
      (NameAndTypeIndex.get_name cf.constant_pool name_and_type_index).bind fun nm =>
      (NameAndTypeIndex.get_descriptor cf.constant_pool name_and_type_index).bind
        fun d =>
      match MethodDescriptor.parse d.toList with
      | .ok (_, md) => .ok ⟨cls, nm, md⟩
      | .error _ => .err .NomError
    | x => .err (.ConstantPoolError "Methodref" x)
  else .panicked

/-- Embeds `InterfaceMethodRef::from_u16`. -/
def InterfaceMethodRef.from_u16 (index : Nat) (cf : ClassFile) :
    Outcome InterfaceMethodRef :=
  if h : 1 ≤ index ∧ index - 1 < cf.constant_pool.length then
    match cf.constant_pool.get ⟨index - 1, h.2⟩ with
    | .InterfaceMethodref class_index name_and_type_index =>
      (ClassIndex.get_as_string_impl cf.constant_pool class_index).bind fun cls =>
      (NameAndTypeIndex.get_name cf.constant_pool name_and_type_index).bind fun nm =>
      (NameAndTypeIndex.get_descriptor cf.constant_pool name_and_type_index).bind
        fun d =>
      match MethodDescriptor.parse d.toList with
      | .ok (_, md) => .ok ⟨cls, nm, md⟩
      | .error _ => .err .NomError
    | x => .err (.ConstantPoolError "InterfaceMethodref" x)
  else .panicked

/-- Embeds `MaybeInterfaceMethodRef::from_u16`: peeks at the entry kind and
delegates. -/
def MaybeInterfaceMethodRef.from_u16 (index : Nat) (cf : ClassFile) :
    Outcome MaybeInterfaceMethodRef :=
  if h : 1 ≤ index ∧ index - 1 < cf.constant_pool.length then
    match cf.constant_pool.get ⟨index - 1, h.2⟩ with
    | .InterfaceMethodref _ _ =>
      (InterfaceMethodRef.from_u16 index cf).bind fun m =>
        .ok (.InterfaceMethod m)
    | .Methodref _ _ =>
      (MethodRef.from_u16 index cf).bind fun m => .ok (.RegularMethod m)
    | x => .err (.ConstantPoolError "MethodrefOrInterfaceMethodref" x)
  else .panicked

/-- Embeds `MethodHandle::from_u16`: dispatch on the reference kind 1–9. -/
def MethodHandle.from_u16 (index : Nat) (cf : ClassFile) : Outcome MethodHandle :=
  if h : 1 ≤ index ∧ index - 1 < cf.constant_pool.length then
    match cf.constant_pool.get ⟨index - 1, h.2⟩ with
    | .MethodHandle kind ref_index =>
      if kind = 1 then
        (FieldRef.from_u16 ref_index cf).bind fun f => .ok (.GetField f)
      else if kind = 2 then
        (FieldRef.from_u16 ref_index cf).bind fun f => .ok (.GetStatic f)
      else if kind = 3 then
        (FieldRef.from_u16 ref_index cf).bind fun f => .ok (.PutField f)
      else if kind = 4 then
        (FieldRef.from_u16 ref_index cf).bind fun f => .ok (.PutStatic f)
      else if kind = 5 then
        (MethodRef.from_u16 ref_index cf).bind fun m => .ok (.InvokeVirtual m)
      else if kind = 8 then
        (MethodRef.from_u16 ref_index cf).bind fun m => .ok (.NewInvokeSpecial m)
      else if kind = 6 then
        (MaybeInterfaceMethodRef.from_u16 ref_index cf).bind fun m =>
          .ok (.InvokeStatic m)
      else if kind = 7 then
        (MaybeInterfaceMethodRef.from_u16 ref_index cf).bind fun m =>
          .ok (.InvokeSpecial m)
      else if kind = 9 then
        (InterfaceMethodRef.from_u16 ref_index cf).bind fun m =>
          .ok (.InvokeInterface m)
      else .err (.ConstantPoolError "ReferenceKind" (.MethodHandle kind ref_index))
    | x => .err (.ConstantPoolError "MethodHandle" x)
  else .panicked

/-- Embeds `BootstrapMethodRaw` record decode (`attributes.rs` 561–568). -/
def readBootstrapMethodRaw : DecM BootstrapMethodRaw := do
  let r ← readU16
  let n ← readU16
  let args ← readVec n readU16
  DecM.pure ⟨r, args⟩

/-- Embeds `BootstrapMethods` decode (`attributes.rs` 576–585): a count-prefixed
list of records. -/
def readBootstrapMethods : DecM (List BootstrapMethodRaw) := do
  let n ← readU16
  readVec n readBootstrapMethodRaw

/-- Modelled from the spec: `ClassFile::bootstrap_methods` is called by
`DynamicInfo::from_u16` but its definition (in the crate's current
`lib.rs`) is absent from `src/`.  Per §4.3 and the `attribute!`-macro
pattern of the sibling accessors it looks "BootstrapMethods" up in the
class-level attribute table — absence is `None`, not an error — and
re-parses the stored bytes with the `BootstrapMethods` decoder. -/
def ClassFile.bootstrap_methods (cf : ClassFile) :
    Outcome (Option (List BootstrapMethodRaw)) :=
  match Attributes.get cf.attributes "BootstrapMethods" with
  | none => .ok none
  | some bytes =>
    match readBootstrapMethods ⟨bytes, 0⟩ with
    | .ok (bms, _) => .ok (some bms)
    | .error _ => .err .BinrwError

/-- Embeds `BootstrapMethods::get` (`attributes.rs` 587–596): 0-based index into
the decoded list; out of range is `Ok(None)`, in range resolves the method
handle. -/
def BootstrapMethods.get (bms : List BootstrapMethodRaw) (idx : Nat)
    (cf : ClassFile) : Outcome (Option BootstrapMethod) :=
  match bms.get? idx with
  | some m =>
    (MethodHandle.from_u16 m.bootstrap_method_ref cf).bind fun mh =>
      .ok (some ⟨mh⟩)
  | none => .ok none

/-- Embeds `DynamicInfo::from_u16` (`instruction.rs` 192–213): resolves the
`InvokeDynamic` entry; a missing class-level BootstrapMethods attribute is
`NoBootstrapMethods` and an out-of-range bootstrap index is
`InvalidBootstrapIndex` carrying that index. -/
def DynamicInfo.from_u16 (index : Nat) (cf : ClassFile) : Outcome DynamicInfo :=
  if h : 1 ≤ index ∧ index - 1 < cf.constant_pool.length then
    match cf.constant_pool.get ⟨index - 1, h.2⟩ with
    | .InvokeDynamic bootstrap_method_attr_index name_and_type_index =>
      (cf.bootstrap_methods).bind fun obms =>
      match obms with
      | none => .err .NoBootstrapMethods
      | some bms =>
        (BootstrapMethods.get bms bootstrap_method_attr_index cf).bind fun obm =>
        match obm with
        | none => .err (.InvalidBootstrapIndex bootstrap_method_attr_index)
        | some bm =>
          (NameAndTypeIndex.get_name cf.constant_pool name_and_type_index).bind
            fun nm =>
          (NameAndTypeIndex.get_descriptor cf.constant_pool
            name_and_type_index).bind fun d =>
          match MethodDescriptor.parse d.toList with
          | .ok (_, md) => .ok ⟨bm, nm, md⟩
          | .error _ => .err .NomError
    | x => .err (.ConstantPoolError "InvokeDynamic" x)
  else .panicked

/-! ## Bytecode instruction decoder (`instruction.rs` 244–720,
`attributes.rs` `Code::instructions`) -/

/-- Embeds `Instruction` (`instruction.rs` 244–720): one constructor per JVM
opcode, in source declaration order, payloads as in the Rust variants
(the Rust field `class` is `class_name`; `_never_used` is `never_used`). -/
inductive Instruction where
  | Aaload
  | Aastore
  | AconstNull
  | Aload (index : Nat)
  | Aload0
  | Aload1
  | Aload2
  | Aload3
  | Anewarray (class_name : String)
  | Areturn
  | Arraylength
  | Astore (index : Nat)
  | Astore0
  | Astore1
  | Astore2
  | Astore3
  | Athrow
  | Baload
  | Bastore
  | Bipush (byte : Int)
  | Caload
  | Castore
  | Checkcast (class_name : String)
  | D2f
  | D2i
  | D2l
  | Dadd
  | Daload
  | Dastore
  | Dcmpg
  | Dcmpl
  | Dconst0
  | Dconst1
  | Ddiv
  | Dload (index : Nat)
  | Dload0
  | Dload1
  | Dload2
  | Dload3
  | Dmul
  | Dneg
  | Drem
  | Dreturn
  | Dstore (index : Nat)
  | Dstore0
  | Dstore1
  | Dstore2
  | Dstore3
  | Dsub
  | Dup
  | DupX1
  | DupX2
  | Dup2
  | Dup2X1
  | Dup2X2
  | F2d
  | F2i
  | F2l
  | Fadd
  | Faload
  | Fastore
  | Fcmpg
  | Fcmpl
  | Fconst0
  | Fconst1
  | Fconst2
  | Fdiv
  | Fload (index : Nat)
  | Fload0
  | Fload1
  | Fload2
  | Fload3
  | Fmul
  | Fneg
  | Frem
  | Freturn
  | Fstore (index : Nat)
  | Fstore0
  | Fstore1
  | Fstore2
  | Fstore3
  | Fsub
  | Getfield (field : FieldRef)
  | Getstatic (field : FieldRef)
  | Goto (offset : Int)
  | GotoW (offset : Int)
  | I2b
  | I2c
  | I2d
  | I2f
  | I2l
  | I2s
  | Iadd
  | Iaload
  | Iand
  | Iastore
  | IconstM1
  | Iconst0
  | Iconst1
  | Iconst2
  | Iconst3
  | Iconst4
  | Iconst5
  | Idiv
  | IfAcmpeq (offset : Int)
  | IfAcmpne (offset : Int)
  | IfIcmpeq (offset : Int)
  | IfIcmpne (offset : Int)
  | IfIcmplt (offset : Int)
  | IfIcmpge (offset : Int)
  | IfIcmpgt (offset : Int)
  | IfIcmple (offset : Int)
  | Ifeq (offset : Int)
  | Ifne (offset : Int)
  | Iflt (offset : Int)
  | Ifge (offset : Int)
  | Ifgt (offset : Int)
  | Ifle (offset : Int)
  | Ifnonnull (offset : Int)
  | Ifnull (offset : Int)
  | Iinc (index : Nat) (constant : Int)
  | Iload (index : Nat)
  | Iload0
  | Iload1
  | Iload2
  | Iload3
  | Imul
  | Ineg
  | Instanceof (class_name : String)
  | Invokedynamic (index : DynamicInfo) (never_used : Nat)
  | Invokeinterface (index : InterfaceMethodRef) (count : Nat) (never_used : Nat)
  | Invokespecial (index : MaybeInterfaceMethodRef)
  | Invokestatic (index : MaybeInterfaceMethodRef)
  | Invokevirtual (index : MethodRef)
  | Ior
  | Irem
  | Ireturn
  | Ishl
  | Ishr
  | Istore (index : Nat)
  | Istore0
  | Istore1
  | Istore2
  | Istore3
  | Isub
  | Iushr
  | Ixor
  | Jsr (offset : Int)
  | JsrW (offset : Int)
  | L2d
  | L2f
  | L2i
  | Ladd
  | Laload
  | Land
  | Lastore
  | Lcmp
  | Lconst0
  | Lconst1
  | Ldc (index : Nat)
  | LdcW (index : Nat)
  | Ldc2W (index : Nat)
  | Ldiv
  | Lload (index : Nat)
  | Lload0
  | Lload1
  | Lload2
  | Lload3
  | Lmul
  | Lneg
  | Lookupswitch (default : Int) (pairs : List (Int × Int))
  | Lor
  | Lrem
  | Lreturn
  | Lshl
  | Lshr
  | Lstore (index : Nat)
  | Lstore0
  | Lstore1
  | Lstore2
  | Lstore3
  | Lsub
  | Lushr
  | Lxor
  | Monitorenter
  | Monitorexit
  | Multianewarray (class_name : String) (dimensions : Nat)
  | New (class_name : String)
  | Newarray (atype : Nat)
  | Nop
  | Pop
  | Pop2
  | Putfield (field : FieldRef)
  | Putstatic (field : FieldRef)
  | Ret (index : Nat)
  | Return
  | Saload
  | Sastore
  | Sipush (value : Int)
  | Swap
  | Tableswitch (default : Int) (low : Int) (high : Int) (jump_offsets : List Int)
  | Wide (opcode : Nat) (index : Nat) (constant : Nat)


/-- Operand shape of an opcode: what the selected variant's fields read
after the magic byte.  `binrw`'s derived enum decode for `Instruction`
reduces to this dispatch because the 202 magic bytes are pairwise
distinct and every variant's body starts right after the magic. -/
inductive OpSpec where
  | noops (i : Instruction)
  | u8op (k : Nat → Instruction)
  | i8op (k : Int → Instruction)
  | i16op (k : Int → Instruction)
  | i32op (k : Int → Instruction)
  | u16op (k : Nat → Instruction)
  | u8i8op (k : Nat → Int → Instruction)
  | classOp (k : String → Instruction)
  | classU8Op (k : String → Nat → Instruction)
  | fieldOp (k : FieldRef → Instruction)
  | methodOp (k : MethodRef → Instruction)
  | maybeOp (k : MaybeInterfaceMethodRef → Instruction)
  | ifaceCall
  | dynCall
  | wideOp
  | tableOp
  | lookupOp
  | invalid

/-- Lift a pure resolution outcome into the reader (`binrw` wraps crate
errors as `Error::Custom`; panics stay panics). -/
def ofOutcome {α : Type} (o : Outcome α) : DecM α := fun s =>
  match o with
  | .ok a => .ok (a, s)
  | .err e => .error (.custom e)
  | .panicked => .error .panicked

/-- The fields of `Tableswitch` after the alignment padding: default, low,
high, then `high - low + 1` jump offsets (`binrw` converts the `i32` count
with `try_into().unwrap()`, so a negative count panics). -/
def tableswitchRest : DecM Instruction := do
  let dflt ← readI32
  let low ← readI32
  let high ← readI32
  let n := high - low + 1
  if n < 0 then dthrow .panicked
  else do
    let offs ← readVec n.toNat readI32
    DecM.pure (.Tableswitch dflt low high offs)

/-- The fields of `Lookupswitch` after the alignment padding: default,
pair count, then that many `(match, offset)` pairs. -/
def lookupswitchRest : DecM Instruction := do
  let dflt ← readI32
  let npairs ← readU32
  let pairs ← readVec npairs (do
    let k ← readI32
    let v ← readI32
    DecM.pure (k, v))
  DecM.pure (.Lookupswitch dflt pairs)

/-- Decode the operand fields of one opcode shape. -/
def OpSpec.interp (cf : ClassFile) : OpSpec → DecM Instruction
  | .noops i => DecM.pure i
  | .u8op k => do let x ← readU8; DecM.pure (k x)
  | .i8op k => do let x ← readI8; DecM.pure (k x)
  | .i16op k => do let x ← readI16; DecM.pure (k x)
  | .i32op k => do let x ← readI32; DecM.pure (k x)
  | .u16op k => do let x ← readU16; DecM.pure (k x)
  | .u8i8op k => do let x ← readU8; let y ← readI8; DecM.pure (k x y)
  | .classOp k => do
    let i ← readU16
    let s ← ofOutcome (ClassIndex.get_as_string_impl cf.constant_pool i)
    DecM.pure (k s)
  | .classU8Op k => do
    let i ← readU16
    let s ← ofOutcome (ClassIndex.get_as_string_impl cf.constant_pool i)
    let d ← readU8
    DecM.pure (k s d)
  | .fieldOp k => do
    let i ← readU16
    let f ← ofOutcome (FieldRef.from_u16 i cf)
    DecM.pure (k f)
  | .methodOp k => do
    let i ← readU16
    let m ← ofOutcome (MethodRef.from_u16 i cf)
    DecM.pure (k m)
  | .maybeOp k => do
    let i ← readU16
    let m ← ofOutcome (MaybeInterfaceMethodRef.from_u16 i cf)
    DecM.pure (k m)
  | .ifaceCall => do
    let i ← readU16
    let m ← ofOutcome (InterfaceMethodRef.from_u16 i cf)
    let c ← readU8
    let nu ← readU16
    DecM.pure (.Invokeinterface m c nu)
  | .dynCall => do
    let i ← readU16
    let d ← ofOutcome (DynamicInfo.from_u16 i cf)
    let nu ← readU16
    DecM.pure (.Invokedynamic d nu)
  | .wideOp => do
    let op ← readU8
    let idx ← readU16
    (if op = 0x84 then readU16 else DecM.pure 0) >>= fun c =>
      DecM.pure (.Wide op idx c)
  | .tableOp => do
    let _ ← bytePad
    tableswitchRest
  | .lookupOp => do
    let _ ← bytePad
    lookupswitchRest
  | .invalid => dthrow .noVariant

set_option maxRecDepth 8000 in
set_option maxHeartbeats 1000000 in
/-- The opcode dispatch of the derived `Instruction` decode: each magic
byte selects its variant's operand shape (the magics are pairwise
distinct, so `binrw`'s try-in-declaration-order equals this dispatch);
an unknown opcode matches no variant and fails. -/
def opcodeTable (op : Nat) : OpSpec :=
  if op = 0x32 then .noops .Aaload
  else if op = 0x53 then .noops .Aastore
  else if op = 0x1 then .noops .AconstNull
  else if op = 0x19 then .u8op (fun x => .Aload x)
  else if op = 0x2a then .noops .Aload0
  else if op = 0x2b then .noops .Aload1
  else if op = 0x2c then .noops .Aload2
  else if op = 0x2d then .noops .Aload3
  else if op = 0xbd then .classOp (fun s => .Anewarray s)
  else if op = 0xb0 then .noops .Areturn
  else if op = 0xbe then .noops .Arraylength
  else if op = 0x3a then .u8op (fun x => .Astore x)
  else if op = 0x4b then .noops .Astore0
  else if op = 0x4c then .noops .Astore1
  else if op = 0x4d then .noops .Astore2
  else if op = 0x4e then .noops .Astore3
  else if op = 0xbf then .noops .Athrow
  else if op = 0x33 then .noops .Baload
  else if op = 0x54 then .noops .Bastore
  else if op = 0x10 then .i8op (fun x => .Bipush x)
  else if op = 0x34 then .noops .Caload
  else if op = 0x55 then .noops .Castore
  else if op = 0xc0 then .classOp (fun s => .Checkcast s)
  else if op = 0x90 then .noops .D2f
  else if op = 0x8e then .noops .D2i
  else if op = 0x8f then .noops .D2l
  else if op = 0x63 then .noops .Dadd
  else if op = 0x31 then .noops .Daload
  else if op = 0x52 then .noops .Dastore
  else if op = 0x98 then .noops .Dcmpg
  else if op = 0x97 then .noops .Dcmpl
  else if op = 0xe then .noops .Dconst0
  else if op = 0xf then .noops .Dconst1
  else if op = 0x6f then .noops .Ddiv
  else if op = 0x18 then .u8op (fun x => .Dload x)
  else if op = 0x26 then .noops .Dload0
  else if op = 0x27 then .noops .Dload1
  else if op = 0x28 then .noops .Dload2
  else if op = 0x29 then .noops .Dload3
  else if op = 0x6b then .noops .Dmul
  else if op = 0x77 then .noops .Dneg
  else if op = 0x73 then .noops .Drem
  else if op = 0xaf then .noops .Dreturn
  else if op = 0x39 then .u8op (fun x => .Dstore x)
  else if op = 0x47 then .noops .Dstore0
  else if op = 0x48 then .noops .Dstore1
  else if op = 0x49 then .noops .Dstore2
  else if op = 0x4a then .noops .Dstore3
  else if op = 0x67 then .noops .Dsub
  else if op = 0x59 then .noops .Dup
  else if op = 0x5a then .noops .DupX1
  else if op = 0x5b then .noops .DupX2
  else if op = 0x5c then .noops .Dup2
  else if op = 0x5d then .noops .Dup2X1
  else if op = 0x5e then .noops .Dup2X2
  else if op = 0x8d then .noops .F2d
  else if op = 0x8b then .noops .F2i
  else if op = 0x8c then .noops .F2l
  else if op = 0x62 then .noops .Fadd
  else if op = 0x30 then .noops .Faload
  else if op = 0x51 then .noops .Fastore
  else if op = 0x96 then .noops .Fcmpg
  else if op = 0x95 then .noops .Fcmpl
  else if op = 0xb then .noops .Fconst0
  else if op = 0xc then .noops .Fconst1
  else if op = 0xd then .noops .Fconst2
  else if op = 0x6e then .noops .Fdiv
  else if op = 0x17 then .u8op (fun x => .Fload x)
  else if op = 0x22 then .noops .Fload0
  else if op = 0x23 then .noops .Fload1
  else if op = 0x24 then .noops .Fload2
  else if op = 0x25 then .noops .Fload3
  else if op = 0x6a then .noops .Fmul
  else if op = 0x76 then .noops .Fneg
  else if op = 0x72 then .noops .Frem
  else if op = 0xae then .noops .Freturn
  else if op = 0x38 then .u8op (fun x => .Fstore x)
  else if op = 0x43 then .noops .Fstore0
  else if op = 0x44 then .noops .Fstore1
  else if op = 0x45 then .noops .Fstore2
  else if op = 0x46 then .noops .Fstore3
  else if op = 0x66 then .noops .Fsub
  else if op = 0xb4 then .fieldOp (fun f => .Getfield f)
  else if op = 0xb2 then .fieldOp (fun f => .Getstatic f)
  else if op = 0xa7 then .i16op (fun x => .Goto x)
  else if op = 0xc8 then .i32op (fun x => .GotoW x)
  else if op = 0x91 then .noops .I2b
  else if op = 0x92 then .noops .I2c
  else if op = 0x87 then .noops .I2d
  else if op = 0x86 then .noops .I2f
  else if op = 0x85 then .noops .I2l
  else if op = 0x93 then .noops .I2s
  else if op = 0x60 then .noops .Iadd
  else if op = 0x2e then .noops .Iaload
  else if op = 0x7e then .noops .Iand
  else if op = 0x4f then .noops .Iastore
  else if op = 0x2 then .noops .IconstM1
  else if op = 0x3 then .noops .Iconst0
  else if op = 0x4 then .noops .Iconst1
  else if op = 0x5 then .noops .Iconst2
  else if op = 0x6 then .noops .Iconst3
  else if op = 0x7 then .noops .Iconst4
  else if op = 0x8 then .noops .Iconst5
  else if op = 0x6c then .noops .Idiv
  else if op = 0xa5 then .i16op (fun x => .IfAcmpeq x)
  else if op = 0xa6 then .i16op (fun x => .IfAcmpne x)
  else if op = 0x9f then .i16op (fun x => .IfIcmpeq x)
  else if op = 0xa0 then .i16op (fun x => .IfIcmpne x)
  else if op = 0xa1 then .i16op (fun x => .IfIcmplt x)
  else if op = 0xa2 then .i16op (fun x => .IfIcmpge x)
  else if op = 0xa3 then .i16op (fun x => .IfIcmpgt x)
  else if op = 0xa4 then .i16op (fun x => .IfIcmple x)
  else if op = 0x99 then .i16op (fun x => .Ifeq x)
  else if op = 0x9a then .i16op (fun x => .Ifne x)
  else if op = 0x9b then .i16op (fun x => .Iflt x)
  else if op = 0x9c then .i16op (fun x => .Ifge x)
  else if op = 0x9d then .i16op (fun x => .Ifgt x)
  else if op = 0x9e then .i16op (fun x => .Ifle x)
  else if op = 0xc7 then .i16op (fun x => .Ifnonnull x)
  else if op = 0xc6 then .i16op (fun x => .Ifnull x)
  else if op = 0x84 then .u8i8op (fun x y => .Iinc x y)
  else if op = 0x15 then .u8op (fun x => .Iload x)
  else if op = 0x1a then .noops .Iload0
  else if op = 0x1b then .noops .Iload1
  else if op = 0x1c then .noops .Iload2
  else if op = 0x1d then .noops .Iload3
  else if op = 0x68 then .noops .Imul
  else if op = 0x74 then .noops .Ineg
  else if op = 0xc1 then .classOp (fun s => .Instanceof s)
  else if op = 0xba then .dynCall
  else if op = 0xb9 then .ifaceCall
  else if op = 0xb7 then .maybeOp (fun m => .Invokespecial m)
  else if op = 0xb8 then .maybeOp (fun m => .Invokestatic m)
  else if op = 0xb6 then .methodOp (fun m => .Invokevirtual m)
  else if op = 0x80 then .noops .Ior
  else if op = 0x70 then .noops .Irem
  else if op = 0xac then .noops .Ireturn
  else if op = 0x78 then .noops .Ishl
  else if op = 0x7a then .noops .Ishr
  else if op = 0x36 then .u8op (fun x => .Istore x)
  else if op = 0x3b then .noops .Istore0
  else if op = 0x3c then .noops .Istore1
  else if op = 0x3d then .noops .Istore2
  else if op = 0x3e then .noops .Istore3
  else if op = 0x64 then .noops .Isub
  else if op = 0x7c then .noops .Iushr
  else if op = 0x82 then .noops .Ixor
  else if op = 0xa8 then .i16op (fun x => .Jsr x)
  else if op = 0xc9 then .i32op (fun x => .JsrW x)
  else if op = 0x8a then .noops .L2d
  else if op = 0x89 then .noops .L2f
  else if op = 0x88 then .noops .L2i
  else if op = 0x61 then .noops .Ladd
  else if op = 0x2f then .noops .Laload
  else if op = 0x7f then .noops .Land
  else if op = 0x50 then .noops .Lastore
  else if op = 0x94 then .noops .Lcmp
  else if op = 0x9 then .noops .Lconst0
  else if op = 0xa then .noops .Lconst1
  else if op = 0x12 then .u8op (fun x => .Ldc x)
  else if op = 0x13 then .u16op (fun x => .LdcW x)
  else if op = 0x14 then .u16op (fun x => .Ldc2W x)
  else if op = 0x6d then .noops .Ldiv
  else if op = 0x16 then .u8op (fun x => .Lload x)
  else if op = 0x1e then .noops .Lload0
  else if op = 0x1f then .noops .Lload1
  else if op = 0x20 then .noops .Lload2
  else if op = 0x21 then .noops .Lload3
  else if op = 0x69 then .noops .Lmul
  else if op = 0x75 then .noops .Lneg
  else if op = 0xab then .lookupOp
  else if op = 0x81 then .noops .Lor
  else if op = 0x71 then .noops .Lrem
  else if op = 0xad then .noops .Lreturn
  else if op = 0x79 then .noops .Lshl
  else if op = 0x7b then .noops .Lshr
  else if op = 0x37 then .u8op (fun x => .Lstore x)
  else if op = 0x3f then .noops .Lstore0
  else if op = 0x40 then .noops .Lstore1
  else if op = 0x41 then .noops .Lstore2
  else if op = 0x42 then .noops .Lstore3
  else if op = 0x65 then .noops .Lsub
  else if op = 0x7d then .noops .Lushr
  else if op = 0x83 then .noops .Lxor
  else if op = 0xc2 then .noops .Monitorenter
  else if op = 0xc3 then .noops .Monitorexit
  else if op = 0xc5 then .classU8Op (fun s d => .Multianewarray s d)
  else if op = 0xbb then .classOp (fun s => .New s)
  else if op = 0xbc then .u8op (fun x => .Newarray x)
  else if op = 0x0 then .noops .Nop
  else if op = 0x57 then .noops .Pop
  else if op = 0x58 then .noops .Pop2
  else if op = 0xb5 then .fieldOp (fun f => .Putfield f)
  else if op = 0xb3 then .fieldOp (fun f => .Putstatic f)
  else if op = 0xa9 then .u8op (fun x => .Ret x)
  else if op = 0xb1 then .noops .Return
  else if op = 0x35 then .noops .Saload
  else if op = 0x56 then .noops .Sastore
  else if op = 0x11 then .u16op (fun x => .Sipush (Int.ofNat x))
  else if op = 0x5f then .noops .Swap
  else if op = 0xaa then .tableOp
  else if op = 0xc4 then .wideOp
  else .invalid


/-- The operand decode selected by an opcode byte. -/
def decodeOps (cf : ClassFile) (op : Nat) : DecM Instruction :=
  (opcodeTable op).interp cf

/-- Embeds `Instruction::read`: the opcode byte then its variant's fields. -/
def decodeInstr (cf : ClassFile) : DecM Instruction := do
  let op ← readU8
  decodeOps cf op

/-- The loop of `Code::instructions` (`attributes.rs` 143–158): decode
instructions until the cursor reaches the code length; any decode error
aborts the whole stream.  The final reader state is returned alongside the
list so the cursor's landing position is part of the specification; `fuel`
only bounds the recursion (`length + 1` suffices: each successful
instruction consumes at least its opcode byte). -/
def instrLoop (cf : ClassFile) : Nat → RState → List Instruction →
    Except RErr (List Instruction × RState)
  | 0, _, _ => .error .eof
  | fuel + 1, s, acc =>
    if s.bytes.length ≤ s.pos then .ok (acc.reverse, s)
    else
      match decodeInstr cf s with
      | .ok (i, s2) => instrLoop cf fuel s2 (i :: acc)
      | .error e => .error e

/-- Embeds `Code::instructions` over the raw code byte array. -/
def Code.instructions (cf : ClassFile) (code : List Nat) :
    Except RErr (List Instruction × RState) :=
  instrLoop cf (code.length + 1) ⟨code, 0⟩ []

/-! ## StackMapTable frames (`attributes.rs` 205–331) -/

/-- Embeds `VerificationTypeInfo` (`attributes.rs` 205–225). -/
inductive VerificationTypeInfo where
  | Top
  | Integer
  | Float
  | Long
  | Double
  | Null
  | UninitializedThis
  | Object (cpool_index : Nat)
  | Uninitialized (offset : Nat)
deriving Repr, DecidableEq

/-- Embeds `VerificationTypeInfo` decode: derived enum with magics 0–8 (4 is
`Long`, 3 is `Double`) and no catch-all, so an unknown tag fails. -/
def readVTI : DecM VerificationTypeInfo := do
  let tag ← readU8
  if tag = 0 then DecM.pure .Top
  else if tag = 1 then DecM.pure .Integer
  else if tag = 2 then DecM.pure .Float
  else if tag = 4 then DecM.pure .Long
  else if tag = 3 then DecM.pure .Double
  else if tag = 5 then DecM.pure .Null
  else if tag = 6 then DecM.pure .UninitializedThis
  else if tag = 7 then do let i ← readU16; DecM.pure (.Object i)
  else if tag = 8 then do let o ← readU16; DecM.pure (.Uninitialized o)
  else dthrow .noVariant

/-- Embeds `StackMapFrame` (`attributes.rs` 227–248); the Rust
`SameLocals1StackItemFrame` stores a 1-element array, kept here as the
single element. -/
inductive StackMapFrame where
  | SameFrame (offset_delta : Nat)
  | SameLocals1StackItemFrame (offset_delta : Nat) (stack : VerificationTypeInfo)
  | ChopFrame (locals_to_remove : Nat) (offset_delta : Nat)
  | AppendFrame (offset_delta : Nat) (locals : List VerificationTypeInfo)
  | FullFrame (offset_delta : Nat) (locals : List VerificationTypeInfo)
      (stack : List VerificationTypeInfo)
deriving Repr, DecidableEq

/-- Embeds `StackMapFrame::read_options` (`attributes.rs` 250–331): the range
dispatch on the first byte. -/
def readStackMapFrame : DecM StackMapFrame := do
  let pos ← curPos
  let magic ← readU8
  if magic ≤ 63 then DecM.pure (.SameFrame magic)
  else if magic ≤ 127 then do
    let v ← readVTI
    DecM.pure (.SameLocals1StackItemFrame (magic - 64) v)
  else if magic ≤ 246 then dthrow (.badMagic pos magic)
  else if magic = 247 then do
    let d ← readU16
    let v ← readVTI
    DecM.pure (.SameLocals1StackItemFrame d v)
  else if magic ≤ 250 then do
    let d ← readU16
    DecM.pure (.ChopFrame (251 - magic) d)
  else if magic = 251 then do
    let d ← readU16
    DecM.pure (.SameFrame d)
  else if magic ≤ 254 then do
    let k := magic - 251
    let d ← readU16
    let locals ← readVec k readVTI
    DecM.pure (.AppendFrame d locals)
  else if magic = 255 then do
    let d ← readU16
    let nl ← readU16
    let locals ← readVec nl readVTI
    let ns ← readU16
    let stack ← readVec ns readVTI
    DecM.pure (.FullFrame d locals stack)
  else dthrow .noVariant

/-! ## Specification predicates -/

/-- A reader that, on success, leaves the byte buffer unchanged and lands
at or before its end (every successful primitive read does). -/
def StrongM {α : Type} (m : DecM α) : Prop :=
  ∀ s a s', m s = .ok (a, s') → s'.bytes = s.bytes ∧ s'.pos ≤ s'.bytes.length

/-- A reader that, on success, leaves the buffer unchanged and either
lands within it or leaves the whole state untouched. -/
def GoodM {α : Type} (m : DecM α) : Prop :=
  ∀ s a s', m s = .ok (a, s') →
    s'.bytes = s.bytes ∧ (s'.pos ≤ s'.bytes.length ∨ s' = s)

/-- The two-slot invariant of a decoded constant pool: every `Long` or
`Double` is directly followed by a `Skip` padding slot. -/
def PadOK (l : List CPItem) : Prop :=
  ∀ j x, l.get? j = some x → x.isWide = true → l.get? (j + 1) = some .Skip

/-- A reader that never changes the byte buffer (all of ours, including
the forward seek of `bytePad`, which may move the cursor past the end). -/
def BytesInv {α : Type} (m : DecM α) : Prop :=
  ∀ s a s', m s = .ok (a, s') → s'.bytes = s.bytes

/-- The tag bytes `ConstantPoolItem` recognizes. -/
def cpTagValid (b : Nat) : Bool :=
  b == 7 || b == 9 || b == 10 || b == 11 || b == 8 || b == 3 || b == 4 ||
  b == 5 || b == 6 || b == 12 || b == 1 || b == 15 || b == 16 || b == 17 ||
  b == 18 || b == 19 || b == 20

/-! ## Reader-monad lemmas -/

theorem bind_apply {α β : Type} (m : DecM α) (f : α → DecM β) (s : RState) :
    (m >>= f) s =
      match m s with
      | .ok (a, s') => f a s'
      | .error e => .error e := rfl

theorem pure_apply {α : Type} (a : α) (s : RState) :
    (DecM.pure a) s = .ok (a, s) := rfl

theorem bind_ok {α β : Type} {m : DecM α} {f : α → DecM β} {s s' : RState}
    {b : β} (h : (m >>= f) s = .ok (b, s')) :
    ∃ a s1, m s = .ok (a, s1) ∧ f a s1 = .ok (b, s') := by
  rw [bind_apply] at h
  cases hms : m s with
  | ok r =>
    obtain ⟨a, s1⟩ := r
    rw [hms] at h
    exact ⟨a, s1, rfl, h⟩
  | error e =>
    rw [hms] at h
    cases h

theorem pure_ok {α : Type} {a b : α} {s s' : RState}
    (h : (DecM.pure a) s = .ok (b, s')) : a = b ∧ s = s' := by
  cases h
  exact ⟨rfl, rfl⟩

theorem strong_good {α : Type} {m : DecM α} (h : StrongM m) : GoodM m := by
  intro s a s' hs
  obtain ⟨h1, h2⟩ := h s a s' hs
  exact ⟨h1, .inl h2⟩

theorem good_pure {α : Type} (a : α) : GoodM (DecM.pure a) := by
  intro s b s' hs
  cases hs
  exact ⟨rfl, .inr rfl⟩

theorem good_dthrow {α : Type} (e : RErr) : GoodM (dthrow (α := α) e) := by
  intro s a s' hs
  cases hs

theorem good_ofOutcome {α : Type} (o : Outcome α) : GoodM (ofOutcome o) := by
  intro s a s' hs
  cases o <;> simp [ofOutcome] at hs
  exact ⟨by rw [hs.2], .inr (by rw [hs.2])⟩

theorem good_bind {α β : Type} {m : DecM α} {f : α → DecM β}
    (hm : GoodM m) (hf : ∀ a, GoodM (f a)) : GoodM (m >>= f) := by
  intro s a s' h
  rw [bind_apply] at h
  cases hms : m s with
  | ok r =>
    obtain ⟨a1, s1⟩ := r
    rw [hms] at h
    obtain ⟨hb1, hp1⟩ := hm s a1 s1 hms
    obtain ⟨hb2, hp2⟩ := hf a1 s1 a s' h
    refine ⟨by rw [hb2, hb1], ?_⟩
    rcases hp2 with h2 | h2
    · exact .inl h2
    · subst h2
      rcases hp1 with h1 | h1
      · exact .inl h1
      · exact .inr h1
  | error e =>
    rw [hms] at h
    cases h

theorem bytesInv_bytePad : BytesInv bytePad := by
  intro s a s' h
  unfold bytePad curPos seekForward at h
  rw [bind_apply] at h
  by_cases hd : s.pos % 4 = 0 <;> simp [hd, DecM.pure] at h
  · rw [← h]
  · rw [← h]

theorem strong_bind_inv {α β : Type} {m : DecM α} {f : α → DecM β}
    (hm : BytesInv m) (hf : ∀ a, StrongM (f a)) : StrongM (m >>= f) := by
  intro s a s' h
  rw [bind_apply] at h
  cases hms : m s with
  | ok r =>
    obtain ⟨a1, s1⟩ := r
    rw [hms] at h
    obtain ⟨hb2, hp2⟩ := hf a1 s1 a s' h
    exact ⟨by rw [hb2, hm s a1 s1 hms], hp2⟩
  | error e =>
    rw [hms] at h
    cases h

theorem strong_bind_good {α β : Type} {m : DecM α} {f : α → DecM β}
    (hm : StrongM m) (hf : ∀ a, GoodM (f a)) : StrongM (m >>= f) := by
  intro s a s' h
  rw [bind_apply] at h
  cases hms : m s with
  | ok r =>
    obtain ⟨a1, s1⟩ := r
    rw [hms] at h
    obtain ⟨hb1, hp1⟩ := hm s a1 s1 hms
    obtain ⟨hb2, hp2⟩ := hf a1 s1 a s' h
    refine ⟨by rw [hb2, hb1], ?_⟩
    rcases hp2 with h2 | h2
    · exact h2
    · subst h2
      exact hp1
  | error e =>
    rw [hms] at h
    cases h

theorem good_ite {α : Type} (c : Prop) [Decidable c] {m m' : DecM α}
    (h1 : GoodM m) (h2 : GoodM m') : GoodM (if c then m else m') := by
  by_cases hc : c
  · simpa [hc] using h1
  · simpa [hc] using h2

theorem strong_readU8 : StrongM readU8 := by
  intro s a s' h
  unfold readU8 at h
  cases hg : s.bytes.get? s.pos with
  | some b =>
    rw [hg] at h
    cases h
    exact ⟨rfl, List.get?_eq_some.mp hg |>.1⟩
  | none =>
    rw [hg] at h
    cases h

theorem strong_readU16 : StrongM readU16 :=
  strong_bind_good strong_readU8 fun _ =>
    good_bind (strong_good strong_readU8) fun _ => good_pure _

theorem strong_readU32 : StrongM readU32 :=
  strong_bind_good strong_readU16 fun _ =>
    good_bind (strong_good strong_readU16) fun _ => good_pure _

theorem strong_readU64 : StrongM readU64 :=
  strong_bind_good strong_readU32 fun _ =>
    good_bind (strong_good strong_readU32) fun _ => good_pure _

theorem strong_readI8 : StrongM readI8 :=
  strong_bind_good strong_readU8 fun _ => good_pure _

theorem strong_readI16 : StrongM readI16 :=
  strong_bind_good strong_readU16 fun _ => good_pure _

theorem strong_readI32 : StrongM readI32 :=
  strong_bind_good strong_readU32 fun _ => good_pure _

theorem strong_readI64 : StrongM readI64 :=
  strong_bind_good strong_readU64 fun _ => good_pure _

theorem good_readVec {α : Type} {p : DecM α} (hp : StrongM p) (n : Nat) :
    GoodM (readVec n p) := by
  induction n with
  | zero => exact good_pure _
  | succ k ih =>
    exact good_bind (strong_good hp) fun a =>
      good_bind ih fun rest => good_pure _

theorem readVec_length {α : Type} {p : DecM α} :
    ∀ (n : Nat) (s : RState) (l : List α) (s' : RState),
      readVec n p s = .ok (l, s') → l.length = n := by
  intro n
  induction n with
  | zero =>
    intro s l s' h
    unfold readVec at h
    rw [pure_apply] at h
    cases h
    rfl
  | succ k ih =>
    intro s l s' h
    unfold readVec at h
    obtain ⟨a, s1, hps, h2⟩ := bind_ok h
    obtain ⟨rest, s2, hrs, h3⟩ := bind_ok h2
    obtain ⟨hv, hsr⟩ := pure_ok h3
    rw [← hv]
    simp [ih s1 rest s2 hrs]

/-! ## The instruction decoder stays within the code array -/

theorem strong_tableswitchRest : StrongM tableswitchRest := by
  unfold tableswitchRest
  exact strong_bind_good strong_readI32 fun dflt =>
    good_bind (strong_good strong_readI32) fun low =>
    good_bind (strong_good strong_readI32) fun high =>
    good_ite _ (good_dthrow _)
      (good_bind (good_readVec strong_readI32 _) fun offs => good_pure _)

theorem strong_lookupswitchRest : StrongM lookupswitchRest := by
  unfold lookupswitchRest
  exact strong_bind_good strong_readI32 fun dflt =>
    good_bind (strong_good strong_readU32) fun npairs =>
    good_bind
      (good_readVec
        (strong_bind_good strong_readI32 fun k =>
          good_bind (strong_good strong_readI32) fun v => good_pure _) _)
      fun pairs => good_pure _

theorem good_interp (cf : ClassFile) (sp : OpSpec) :
    GoodM (OpSpec.interp cf sp) := by
  cases sp with
  | noops i => exact good_pure _
  | u8op k =>
    exact strong_good (strong_bind_good strong_readU8 fun x => good_pure _)
  | i8op k =>
    exact strong_good (strong_bind_good strong_readI8 fun x => good_pure _)
  | i16op k =>
    exact strong_good (strong_bind_good strong_readI16 fun x => good_pure _)
  | i32op k =>
    exact strong_good (strong_bind_good strong_readI32 fun x => good_pure _)
  | u16op k =>
    exact strong_good (strong_bind_good strong_readU16 fun x => good_pure _)
  | u8i8op k =>
    exact strong_good (strong_bind_good strong_readU8 fun x =>
      good_bind (strong_good strong_readI8) fun y => good_pure _)
  | classOp k =>
    exact strong_good (strong_bind_good strong_readU16 fun i =>
      good_bind (good_ofOutcome _) fun v => good_pure _)
  | classU8Op k =>
    exact strong_good (strong_bind_good strong_readU16 fun i =>
      good_bind (good_ofOutcome _) fun v =>
      good_bind (strong_good strong_readU8) fun d => good_pure _)
  | fieldOp k =>
    exact strong_good (strong_bind_good strong_readU16 fun i =>
      good_bind (good_ofOutcome _) fun v => good_pure _)
  | methodOp k =>
    exact strong_good (strong_bind_good strong_readU16 fun i =>
      good_bind (good_ofOutcome _) fun v => good_pure _)
  | maybeOp k =>
    exact strong_good (strong_bind_good strong_readU16 fun i =>
      good_bind (good_ofOutcome _) fun v => good_pure _)
  | ifaceCall =>
    exact strong_good (strong_bind_good strong_readU16 fun i =>
      good_bind (good_ofOutcome _) fun m =>
      good_bind (strong_good strong_readU8) fun c =>
      good_bind (strong_good strong_readU16) fun nu => good_pure _)
  | dynCall =>
    exact strong_good (strong_bind_good strong_readU16 fun i =>
      good_bind (good_ofOutcome _) fun d =>
      good_bind (strong_good strong_readU16) fun nu => good_pure _)
  | wideOp =>
    exact strong_good (strong_bind_good strong_readU8 fun op =>
      good_bind (strong_good strong_readU16) fun idx =>
      good_bind (good_ite _ (strong_good strong_readU16) (good_pure _))
        fun c => good_pure _)
  | tableOp =>
    exact strong_good
      (strong_bind_inv bytesInv_bytePad fun _ => strong_tableswitchRest)
  | lookupOp =>
    exact strong_good
      (strong_bind_inv bytesInv_bytePad fun _ => strong_lookupswitchRest)
  | invalid => exact good_dthrow _

theorem good_decodeOps (cf : ClassFile) (op : Nat) : GoodM (decodeOps cf op) :=
  good_interp cf (opcodeTable op)

theorem strong_decodeInstr (cf : ClassFile) : StrongM (decodeInstr cf) :=
  strong_bind_good strong_readU8 fun op => good_decodeOps cf op

theorem instrLoop_lands_at_end (cf : ClassFile) :
    ∀ (fuel : Nat) (s : RState) (acc : List Instruction)
      (l : List Instruction) (s' : RState),
      instrLoop cf fuel s acc = .ok (l, s') → s.pos ≤ s.bytes.length →
      s'.bytes = s.bytes ∧ s'.pos = s'.bytes.length := by
  intro fuel
  induction fuel with
  | zero =>
    intro s acc l s' h _
    simp [instrLoop] at h
  | succ n ih =>
    intro s acc l s' h hle
    rw [instrLoop] at h
    by_cases hend : s.bytes.length ≤ s.pos
    · rw [if_pos hend] at h
      cases h
      exact ⟨rfl, Nat.le_antisymm hle hend⟩
    · rw [if_neg hend] at h
      cases hd : decodeInstr cf s with
      | ok r =>
        obtain ⟨i, s2⟩ := r
        rw [hd] at h
        obtain ⟨hb2, hp2⟩ := strong_decodeInstr cf s i s2 hd
        obtain ⟨hb3, hp3⟩ := ih s2 (i :: acc) l s' h (by rw [hb2] at hp2 ⊢; exact hp2)
        exact ⟨by rw [hb3, hb2], hp3⟩
      | error e =>
        rw [hd] at h
        cases h

/-- C2: for every class file and method code array, the instruction-stream
decode of `Code::instructions` terminates successfully only when the
cursor lands exactly at `code_length`, having consumed exactly
`code_length` bytes; and a code array truncated mid-instruction (here a
`sipush` opcode missing its two operand bytes) makes the whole decode
return the truncation error instead of a partial sequence. -/
theorem c2_instructions_consume_exactly (cf : ClassFile) (code : List Nat)
    (l : List Instruction) (s' : RState)
    (h : Code.instructions cf code = .ok (l, s')) :
    (s'.bytes = code ∧ s'.pos = code.length)
    ∧ (∀ cf' : ClassFile, Code.instructions cf' [0x11] = .error .eof) := by
  constructor
  · obtain ⟨h1, h2⟩ :=
      instrLoop_lands_at_end cf (code.length + 1) ⟨code, 0⟩ [] l s' h
        (by simp)
    exact ⟨h1, by rw [h2, h1]⟩
  · intro cf'
    rfl

/-- C2 witness: the 1-byte `nop` stream decodes with the cursor landed at
length 1, by `c2_instructions_consume_exactly` at that concrete input. -/
theorem c2_witness :
    ((⟨[0x00], 1⟩ : RState).bytes = [0x00]
      ∧ (⟨[0x00], 1⟩ : RState).pos = [0x00].length)
    ∧ (∀ cf' : ClassFile, Code.instructions cf' [0x11] = .error .eof) :=
  c2_instructions_consume_exactly ⟨0, 0, [], 0, 0, 0, [], [], [], []⟩
    [0x00] [.Nop] ⟨[0x00], 1⟩ rfl

/-- C9: for a `tableswitch` (0xaa) or `lookupswitch` (0xab) opcode byte at
any offset `p` of the code array — every residue of `p` mod 4 — the
decoder dispatches to the padding-then-payload reader at cursor `p + 1`,
and the `BytePad` skip of 0–3 bytes lands the cursor, measured from the
start of the code array, on the next 4-byte-aligned offset, where the
default-offset field is then read. -/
theorem c9_switch_padding_aligns (cf : ClassFile) (bytes : List Nat)
    (p op : Nat) (hop : op = 0xaa ∨ op = 0xab)
    (hb : bytes.get? p = some op) :
    (decodeInstr cf ⟨bytes, p⟩ =
      (bytePad >>= fun _ =>
        if op = 0xaa then tableswitchRest else lookupswitchRest) ⟨bytes, p + 1⟩)
    ∧ bytePad ⟨bytes, p + 1⟩ =
        .ok ((), ⟨bytes, p + 1 + (4 - (p + 1) % 4) % 4⟩)
    ∧ (p + 1 + (4 - (p + 1) % 4) % 4) % 4 = 0
    ∧ (4 - (p + 1) % 4) % 4 ≤ 3 := by
  have h8 : readU8 ⟨bytes, p⟩ = .ok (op, ⟨bytes, p + 1⟩) := by
    unfold readU8
    rw [hb]
  refine ⟨?_, ?_, by omega, by omega⟩
  · show (readU8 >>= fun b => decodeOps cf b) ⟨bytes, p⟩ = _
    rw [bind_apply, h8]
    rcases hop with h | h <;> subst h <;> rfl
  · by_cases hd : (p + 1) % 4 = 0
    · have hz : (4 - (p + 1) % 4) % 4 = 0 := by omega
      simp [bytePad, curPos, seekForward, bind_apply, DecM.pure, hd, hz]
    · have hz : (4 - (p + 1) % 4) % 4 = 4 - (p + 1) % 4 := by omega
      simp [bytePad, curPos, seekForward, bind_apply, DecM.pure, hd, hz]

/-- C9 witness: `c9_switch_padding_aligns` at a `tableswitch` opcode at
offset 2 (cursor 3, one padding byte skipped, landing at 4). -/
theorem c9_witness :
    (decodeInstr ⟨0, 0, [], 0, 0, 0, [], [], [], []⟩ ⟨[0, 0, 0xaa], 2⟩ =
      (bytePad >>= fun _ =>
        if (0xaa : Nat) = 0xaa then tableswitchRest else lookupswitchRest)
        ⟨[0, 0, 0xaa], 2 + 1⟩)
    ∧ bytePad ⟨[0, 0, 0xaa], 2 + 1⟩ =
        .ok ((), ⟨[0, 0, 0xaa], 2 + 1 + (4 - (2 + 1) % 4) % 4⟩)
    ∧ (2 + 1 + (4 - (2 + 1) % 4) % 4) % 4 = 0
    ∧ (4 - (2 + 1) % 4) % 4 ≤ 3 :=
  c9_switch_padding_aligns ⟨0, 0, [], 0, 0, 0, [], [], [], []⟩
    [0, 0, 0xaa] 2 0xaa (Or.inl rfl) rfl

/-- C10: decoding `sipush` zero-extends the 16-bit immediate into the
`i32` payload (`map = |x: u16| x as i32`): for any operand bytes the value
is `hi * 256 + lo`, non-negative and at most 65535. -/
theorem c10_sipush_zero_extends (cf : ClassFile) (b1 b2 : Nat)
    (rest : List Nat) (h1 : b1 < 256) (h2 : b2 < 256) :
    decodeInstr cf ⟨0x11 :: b1 :: b2 :: rest, 0⟩ =
      .ok (.Sipush (Int.ofNat (b1 * 256 + b2)),
        ⟨0x11 :: b1 :: b2 :: rest, 3⟩)
    ∧ 0 ≤ Int.ofNat (b1 * 256 + b2) ∧ b1 * 256 + b2 ≤ 65535 := by
  refine ⟨rfl, Int.ofNat_nonneg _, by omega⟩

/-- C10 witness: operand bytes 0xFF 0xFF (a negative Java short) decode to
65535, not -1, by `c10_sipush_zero_extends` at that input. -/
theorem c10_witness :
    (decodeInstr ⟨0, 0, [], 0, 0, 0, [], [], [], []⟩ ⟨[0x11, 0xFF, 0xFF], 0⟩ =
      .ok (.Sipush (Int.ofNat (0xFF * 256 + 0xFF)), ⟨[0x11, 0xFF, 0xFF], 3⟩)
      ∧ 0 ≤ Int.ofNat (0xFF * 256 + 0xFF) ∧ 0xFF * 256 + 0xFF ≤ 65535)
    ∧ Int.ofNat (0xFF * 256 + 0xFF) = 65535 :=
  ⟨c10_sipush_zero_extends ⟨0, 0, [], 0, 0, 0, [], [], [], []⟩
    0xFF 0xFF [] (by decide) (by decide), rfl⟩

theorem run2 {α : Type} (k : Nat → Nat → DecM α) (s : RState) (b : Nat)
    (hb : s.bytes.get? s.pos = some b) :
    (curPos >>= fun pos => readU8 >>= fun magic => k pos magic) s =
      k s.pos b ⟨s.bytes, s.pos + 1⟩ := by
  have h8 : readU8 s = .ok (b, ⟨s.bytes, s.pos + 1⟩) := by
    unfold readU8
    rw [hb]
  show (readU8 >>= fun magic => k s.pos magic) s = _
  rw [bind_apply, h8]

/-- C8: the StackMapTable frame dispatch maps every possible first byte
0–255 to exactly one outcome over non-overlapping exhaustive ranges:
0–63 `SameFrame` with implicit offset = tag; 64–127
`SameLocals1StackItemFrame` with implicit offset = tag − 64; 128–246 a
hard decode error; 247 `SameLocals1StackItemFrame` with explicit offset;
248–250 `ChopFrame` removing 251 − tag locals; 251 `SameFrame` with
explicit offset; 252–254 `AppendFrame` appending tag − 251 locals; 255
`FullFrame` with explicit local and stack lists. -/
theorem c8_stackmap_tag_dispatch (s : RState) (b : Nat)
    (hb : s.bytes.get? s.pos = some b) (hlt : b < 256) :
    (b ≤ 63 →
      readStackMapFrame s = .ok (.SameFrame b, ⟨s.bytes, s.pos + 1⟩))
    ∧ (128 ≤ b ∧ b ≤ 246 →
      readStackMapFrame s = .error (.badMagic s.pos b))
    ∧ (∀ fr s', readStackMapFrame s = .ok (fr, s') →
        (b ≤ 63 → fr = .SameFrame b)
        ∧ (64 ≤ b ∧ b ≤ 127 →
            ∃ v, fr = .SameLocals1StackItemFrame (b - 64) v)
        ∧ (b = 247 → ∃ d v, fr = .SameLocals1StackItemFrame d v)
        ∧ (248 ≤ b ∧ b ≤ 250 → ∃ d, fr = .ChopFrame (251 - b) d)
        ∧ (b = 251 → ∃ d, fr = .SameFrame d)
        ∧ (252 ≤ b ∧ b ≤ 254 →
            ∃ d locals, fr = .AppendFrame d locals ∧ locals.length = b - 251)
        ∧ (b = 255 → ∃ d locals stack, fr = .FullFrame d locals stack)) := by
  have hmain : readStackMapFrame s =
      (if b ≤ 63 then DecM.pure (StackMapFrame.SameFrame b)
       else if b ≤ 127 then
         readVTI >>= fun v =>
           DecM.pure (StackMapFrame.SameLocals1StackItemFrame (b - 64) v)
       else if b ≤ 246 then dthrow (.badMagic s.pos b)
       else if b = 247 then
         readU16 >>= fun d => readVTI >>= fun v =>
           DecM.pure (StackMapFrame.SameLocals1StackItemFrame d v)
       else if b ≤ 250 then
         readU16 >>= fun d =>
           DecM.pure (StackMapFrame.ChopFrame (251 - b) d)
       else if b = 251 then
         readU16 >>= fun d => DecM.pure (StackMapFrame.SameFrame d)
       else if b ≤ 254 then
         readU16 >>= fun d => readVec (b - 251) readVTI >>= fun locals =>
           DecM.pure (StackMapFrame.AppendFrame d locals)
       else if b = 255 then
         readU16 >>= fun d => readU16 >>= fun nl =>
           readVec nl readVTI >>= fun locals =>
           readU16 >>= fun ns => readVec ns readVTI >>= fun stack =>
           DecM.pure (StackMapFrame.FullFrame d locals stack)
       else dthrow .noVariant) ⟨s.bytes, s.pos + 1⟩ :=
    run2 (fun pos magic =>
      (if magic ≤ 63 then DecM.pure (StackMapFrame.SameFrame magic)
       else if magic ≤ 127 then
         readVTI >>= fun v =>
           DecM.pure (StackMapFrame.SameLocals1StackItemFrame (magic - 64) v)
       else if magic ≤ 246 then dthrow (.badMagic pos magic)
       else if magic = 247 then
         readU16 >>= fun d => readVTI >>= fun v =>
           DecM.pure (StackMapFrame.SameLocals1StackItemFrame d v)
       else if magic ≤ 250 then
         readU16 >>= fun d =>
           DecM.pure (StackMapFrame.ChopFrame (251 - magic) d)
       else if magic = 251 then
         readU16 >>= fun d => DecM.pure (StackMapFrame.SameFrame d)
       else if magic ≤ 254 then
         readU16 >>= fun d =>
           readVec (magic - 251) readVTI >>= fun locals =>
           DecM.pure (StackMapFrame.AppendFrame d locals)
       else if magic = 255 then
         readU16 >>= fun d => readU16 >>= fun nl =>
           readVec nl readVTI >>= fun locals =>
           readU16 >>= fun ns => readVec ns readVTI >>= fun stack =>
           DecM.pure (StackMapFrame.FullFrame d locals stack)
       else dthrow .noVariant)) s b hb
  refine ⟨?_, ?_, ?_⟩
  · intro h63
    rw [hmain, if_pos h63]
    rfl
  · intro hrange
    rw [hmain, if_neg (by omega), if_neg (by omega), if_pos (by omega)]
    rfl
  · intro fr s' hok
    rw [hmain] at hok
    refine ⟨?_, ?_, ?_, ?_, ?_, ?_, ?_⟩
    · intro h63
      rw [if_pos h63] at hok
      exact ((pure_ok hok).1).symm ▸ rfl
    · intro hrange
      rw [if_neg (by omega), if_pos (by omega)] at hok
      obtain ⟨v, s1, hv, hok2⟩ := bind_ok hok
      exact ⟨v, ((pure_ok hok2).1).symm⟩
    · intro h247
      rw [if_neg (by omega), if_neg (by omega), if_neg (by omega),
        if_pos h247] at hok
      obtain ⟨d, s1, hd, hok2⟩ := bind_ok hok
      obtain ⟨v, s2, hv, hok3⟩ := bind_ok hok2
      exact ⟨d, v, ((pure_ok hok3).1).symm⟩
    · intro hrange
      rw [if_neg (by omega), if_neg (by omega), if_neg (by omega),
        if_neg (by omega), if_pos (by omega)] at hok
      obtain ⟨d, s1, hd, hok2⟩ := bind_ok hok
      exact ⟨d, ((pure_ok hok2).1).symm⟩
    · intro h251
      rw [if_neg (by omega), if_neg (by omega), if_neg (by omega),
        if_neg (by omega), if_neg (by omega), if_pos h251] at hok
      obtain ⟨d, s1, hd, hok2⟩ := bind_ok hok
      exact ⟨d, ((pure_ok hok2).1).symm⟩
    · intro hrange
      rw [if_neg (by omega), if_neg (by omega), if_neg (by omega),
        if_neg (by omega), if_neg (by omega), if_neg (by omega),
        if_pos (by omega)] at hok
      obtain ⟨d, s1, hd, hok2⟩ := bind_ok hok
      obtain ⟨locals, s2, hl, hok3⟩ := bind_ok hok2
      exact ⟨d, locals, ((pure_ok hok3).1).symm,
        readVec_length (b - 251) s1 locals s2 hl⟩
    · intro h255
      rw [if_neg (by omega), if_neg (by omega), if_neg (by omega),
        if_neg (by omega), if_neg (by omega), if_neg (by omega),
        if_neg (by omega), if_pos h255] at hok
      obtain ⟨d, s1, hd, hok2⟩ := bind_ok hok
      obtain ⟨nl, s2, hnl, hok3⟩ := bind_ok hok2
      obtain ⟨locals, s3, hl, hok4⟩ := bind_ok hok3
      obtain ⟨ns, s4, hns, hok5⟩ := bind_ok hok4
      obtain ⟨stack, s5, hst, hok6⟩ := bind_ok hok5
      exact ⟨d, locals, stack, ((pure_ok hok6).1).symm⟩

/-- C8 witness: `c8_stackmap_tag_dispatch` at tag 130 (hard error) and at
tag 251 with explicit offset 7 (`SameFrame`). -/
theorem c8_witness :
    readStackMapFrame ⟨[130], 0⟩ = .error (.badMagic 0 130)
    ∧ (∃ d, (StackMapFrame.SameFrame 7) = .SameFrame d) := by
  constructor
  · exact (c8_stackmap_tag_dispatch ⟨[130], 0⟩ 130 rfl (by decide)).2.1
      ⟨by decide, by decide⟩
  · exact ((c8_stackmap_tag_dispatch ⟨[251, 0, 7], 0⟩ 251 rfl (by decide)).2.2
      (.SameFrame 7) ⟨[251, 0, 7], 3⟩ rfl).2.2.2.2.1 rfl

/-- C1 (amended): for index values `i` with `1 ≤ i ≤ pool length`, typed
resolution is total and fallible — the expected variant resolves and any
other variant yields a `ConstantPoolError` naming the found entry, with no
panic from `Utf8Index` resolution or the primitive `ConstantValue`
accessors.  (Index 0 and indices past the end are NOT bounds-checked by
the code: the `pool[i-1]` lookup panics there, see the counterexample.) -/
theorem c1_inbounds_resolution_total (cpool : List CPItem) (i : Nat)
    (h1 : 1 ≤ i) (h2 : i ≤ cpool.length) :
    (Utf8Index.get_as_string_impl cpool i ≠ .panicked)
    ∧ (ConstantValue.int_value cpool i ≠ .panicked)
    ∧ (ConstantValue.long_value cpool i ≠ .panicked)
    ∧ (ConstantValue.float_value cpool i ≠ .panicked)
    ∧ (ConstantValue.double_value cpool i ≠ .panicked)
    ∧ (∀ x v, cpool.get? (i - 1) = some x → x = .Utf8 v →
        Utf8Index.get_as_string_impl cpool i = .ok v)
    ∧ (∀ x, cpool.get? (i - 1) = some x → (∀ v, x ≠ .Utf8 v) →
        Utf8Index.get_as_string_impl cpool i =
          .err (.ConstantPoolError "Utf8" x))
    ∧ (∀ x, cpool.get? (i - 1) = some x → (∀ n, x ≠ .Class n) →
        ClassIndex.get_as_string_impl cpool i =
          .err (.ConstantPoolError "Class" x))
    ∧ (∀ x, cpool.get? (i - 1) = some x → (∀ n d, x ≠ .NameAndType n d) →
        NameAndTypeIndex.get_as_string_impl cpool i =
          .err (.ConstantPoolError "NameAndType" x))
    ∧ (∀ x, cpool.get? (i - 1) = some x → (∀ v, x ≠ .Integer v) →
        ConstantValue.int_value cpool i =
          .err (.ConstantPoolError "Integer" x)) := by
  have hlt : i - 1 < cpool.length := by omega
  have hcond : 1 ≤ i ∧ i - 1 < cpool.length := ⟨h1, hlt⟩
  have hget : cpool.get? (i - 1) = some (cpool.get ⟨i - 1, hlt⟩) :=
    List.get?_eq_get hlt
  refine ⟨?_, ?_, ?_, ?_, ?_, ?_, ?_, ?_, ?_, ?_⟩
  · unfold Utf8Index.get_as_string_impl
    rw [dif_pos hcond]
    cases cpool.get ⟨i - 1, hlt⟩ <;> simp
  · unfold ConstantValue.int_value
    rw [dif_pos hcond]
    cases cpool.get ⟨i - 1, hlt⟩ <;> simp
  · unfold ConstantValue.long_value
    rw [dif_pos hcond]
    cases cpool.get ⟨i - 1, hlt⟩ <;> simp
  · unfold ConstantValue.float_value
    rw [dif_pos hcond]
    cases cpool.get ⟨i - 1, hlt⟩ <;> simp
  · unfold ConstantValue.double_value
    rw [dif_pos hcond]
    cases cpool.get ⟨i - 1, hlt⟩ <;> simp
  · intro x v hx hxv
    unfold Utf8Index.get_as_string_impl
    rw [dif_pos hcond]
    rw [hget] at hx
    cases hx
    rw [hxv]
  · intro x hx hnot
    unfold Utf8Index.get_as_string_impl
    rw [dif_pos hcond]
    rw [hget] at hx
    cases hx
    cases hc : cpool.get ⟨i - 1, hlt⟩ <;>
      first
        | rfl
        | exact absurd hc (hnot _)
  · intro x hx hnot
    unfold ClassIndex.get_as_string_impl
    rw [dif_pos hcond]
    rw [hget] at hx
    cases hx
    cases hc : cpool.get ⟨i - 1, hlt⟩ <;>
      first
        | rfl
        | exact absurd hc (hnot _)
  · intro x hx hnot
    unfold NameAndTypeIndex.get_as_string_impl
    rw [dif_pos hcond]
    rw [hget] at hx
    cases hx
    cases hc : cpool.get ⟨i - 1, hlt⟩ <;>
      first
        | rfl
        | exact absurd hc (hnot _ _)
  · intro x hx hnot
    unfold ConstantValue.int_value
    rw [dif_pos hcond]
    rw [hget] at hx
    cases hx
    cases hc : cpool.get ⟨i - 1, hlt⟩ <;>
      first
        | rfl
        | exact absurd hc (hnot _)

/-- C1 counterexample: resolving index 0 — and an index past the end —
panics (the `pool[i-1]` lookup is not bounds-checked), so resolution is
not the total, error-returning operation the claim states. -/
theorem c1_counterexample :
    Utf8Index.get_as_string_impl [.Utf8 "A"] 0 = .panicked
    ∧ Utf8Index.get_as_string_impl [.Utf8 "A"] 2 = .panicked
    ∧ ConstantValue.int_value [.Integer 5] 0 = .panicked := by
  refine ⟨rfl, rfl, rfl⟩

/-- C1 witness: `c1_inbounds_resolution_total` at the two-entry pool
`[Utf8 "A", Integer 5]` and index 2 (a wrong-variant lookup). -/
theorem c1_witness :
    Utf8Index.get_as_string_impl [.Utf8 "A", .Integer 5] 2 =
      .err (.ConstantPoolError "Utf8" (.Integer 5)) :=
  (c1_inbounds_resolution_total [.Utf8 "A", .Integer 5] 2 (by decide)
    (by decide)).2.2.2.2.2.2.1 (.Integer 5) rfl (by intro v h; cases h)

/-- C4 counterexample: an attribute whose name index resolves to an
`Integer` pool entry does NOT fail the table decode — the resolution error
is swallowed by `.unwrap_or("")` and the attribute is stored under the
empty name, contradicting the claim that the error is returned to the
caller. -/
theorem c4_counterexample :
    readAttributes [.Integer 5] ⟨[0, 1, 0, 1, 0, 0, 0, 0], 0⟩ =
      .ok ([("", [])], ⟨[0, 1, 0, 1, 0, 0, 0, 0], 8⟩) := rfl

/-- C4 (amended): when an attribute's name index (here in-bounds, to avoid
the unchecked-lookup panic of C1) resolves to a non-`Utf8` entry, the
`ConstantPoolError` is silently swallowed into the empty attribute name
and the attribute-table decode succeeds, storing the payload under `""`;
only a genuinely unknown attribute name is meant to be kept as opaque
bytes. -/
theorem c4_swallows_name_error (cpool : List CPItem) (hi lo : Nat)
    (h1 : 1 ≤ hi * 256 + lo) (h2 : hi * 256 + lo ≤ cpool.length)
    (h3 : ∀ v, cpool.get? (hi * 256 + lo - 1) ≠ some (.Utf8 v)) :
    attrName cpool (hi * 256 + lo) = some ""
    ∧ readAttributes cpool ⟨[0, 1, hi, lo, 0, 0, 0, 0], 0⟩ =
        .ok ([("", [])], ⟨[0, 1, hi, lo, 0, 0, 0, 0], 8⟩) := by
  have hlt : hi * 256 + lo - 1 < cpool.length := by omega
  have hcond : 1 ≤ hi * 256 + lo ∧ hi * 256 + lo - 1 < cpool.length :=
    ⟨h1, hlt⟩
  have hget : cpool.get? (hi * 256 + lo - 1) =
      some (cpool.get ⟨hi * 256 + lo - 1, hlt⟩) := List.get?_eq_get hlt
  have hname : attrName cpool (hi * 256 + lo) = some "" := by
    unfold attrName Utf8Index.get_as_string_impl
    rw [dif_pos hcond]
    cases hc : cpool.get ⟨hi * 256 + lo - 1, hlt⟩ <;>
      first
        | rfl
        | exact absurd (by rw [hc] at hget; exact hget) (h3 _)
  refine ⟨hname, ?_⟩
  have h16 : readU16 ⟨[0, 1, hi, lo, 0, 0, 0, 0], 2⟩ =
      .ok (hi * 256 + lo, ⟨[0, 1, hi, lo, 0, 0, 0, 0], 4⟩) := rfl
  have hone : readAttrOne cpool ⟨[0, 1, hi, lo, 0, 0, 0, 0], 2⟩ =
      .ok (("", []), ⟨[0, 1, hi, lo, 0, 0, 0, 0], 8⟩) := by
    unfold readAttrOne
    rw [bind_apply, h16]
    show (match attrName cpool (hi * 256 + lo) with
      | none => dthrow .panicked
      | some name =>
        readU32 >>= fun len => readExact len >>= fun info =>
          DecM.pure (name, info)) ⟨[0, 1, hi, lo, 0, 0, 0, 0], 4⟩ = _
    rw [hname]
    rfl
  show (readU16 >>= fun count => readVec count (readAttrOne cpool))
      ⟨[0, 1, hi, lo, 0, 0, 0, 0], 0⟩ = _
  rw [bind_apply,
    show readU16 ⟨[0, 1, hi, lo, 0, 0, 0, 0], 0⟩ =
      .ok (1, ⟨[0, 1, hi, lo, 0, 0, 0, 0], 2⟩) from rfl]
  show (readAttrOne cpool >>= fun a =>
    readVec 0 (readAttrOne cpool) >>= fun rest =>
      DecM.pure (a :: rest)) ⟨[0, 1, hi, lo, 0, 0, 0, 0], 2⟩ = _
  rw [bind_apply, hone]
  rfl

/-- C4 witness: `c4_swallows_name_error` at the pool `[Integer 5]` with
name index 1. -/
theorem c4_witness :
    attrName [CPItem.Integer 5] (0 * 256 + 1) = some ""
    ∧ readAttributes [CPItem.Integer 5] ⟨[0, 1, 0, 1, 0, 0, 0, 0], 0⟩ =
        .ok ([("", [])], ⟨[0, 1, 0, 1, 0, 0, 0, 0], 8⟩) :=
  c4_swallows_name_error [CPItem.Integer 5] 0 1 (by decide) (by decide)
    (by intro v h; simp at h)

/-- C5: resolving an `invokedynamic` call site (`DynamicInfo::from_u16` on
an `InvokeDynamic` pool entry): if the class has no BootstrapMethods
attribute the result is the `NoBootstrapMethods` error; if the attribute
is present but its decoded method count is at most the entry's bootstrap
index, the result is `InvalidBootstrapIndex` carrying exactly that index —
two distinct error variants, neither ignored. -/
theorem c5_invokedynamic_bootstrap_errors (cf : ClassFile)
    (index bmai nti : Nat) (h1 : 1 ≤ index)
    (he : cf.constant_pool.get? (index - 1) = some (.InvokeDynamic bmai nti)) :
    (Attributes.get cf.attributes "BootstrapMethods" = none →
      DynamicInfo.from_u16 index cf = .err .NoBootstrapMethods)
    ∧ (∀ bs bms s',
        Attributes.get cf.attributes "BootstrapMethods" = some bs →
        readBootstrapMethods ⟨bs, 0⟩ = .ok (bms, s') →
        bms.length ≤ bmai →
        DynamicInfo.from_u16 index cf =
          .err (.InvalidBootstrapIndex bmai)) := by
  have hlt : index - 1 < cf.constant_pool.length :=
    List.get?_eq_some.mp he |>.1
  have hcond : 1 ≤ index ∧ index - 1 < cf.constant_pool.length := ⟨h1, hlt⟩
  have hentry : cf.constant_pool.get ⟨index - 1, hcond.2⟩ =
      .InvokeDynamic bmai nti := by
    have hg := List.get?_eq_get (l := cf.constant_pool) hcond.2
    rw [hg] at he
    exact Option.some.inj he
  constructor
  · intro hno
    unfold DynamicInfo.from_u16
    rw [dif_pos hcond, hentry]
    simp only [ClassFile.bootstrap_methods, hno, Outcome.bind]
  · intro bs bms s' hbs hdec hlen
    have hnone : bms.get? bmai = none := List.get?_eq_none.mpr hlen
    unfold DynamicInfo.from_u16
    rw [dif_pos hcond, hentry]
    simp only [ClassFile.bootstrap_methods, hbs, hdec, Outcome.bind,
      BootstrapMethods.get, hnone]

/-- C5 witness: `c5_invokedynamic_bootstrap_errors` at a class with an
`InvokeDynamic` entry and no BootstrapMethods attribute, and at one whose
BootstrapMethods attribute declares zero methods while the entry uses
bootstrap index 0. -/
theorem c5_witness :
    DynamicInfo.from_u16 1
      ⟨0, 0, [.InvokeDynamic 0 2], 0, 0, 0, [], [], [], []⟩ =
      .err .NoBootstrapMethods
    ∧ DynamicInfo.from_u16 1
        ⟨0, 0, [.InvokeDynamic 0 2], 0, 0, 0, [], [], [],
          [("BootstrapMethods", [0, 0])]⟩ =
      .err (.InvalidBootstrapIndex 0) :=
  ⟨(c5_invokedynamic_bootstrap_errors
      ⟨0, 0, [.InvokeDynamic 0 2], 0, 0, 0, [], [], [], []⟩ 1 0 2
      (by decide) rfl).1 rfl,
   (c5_invokedynamic_bootstrap_errors
      ⟨0, 0, [.InvokeDynamic 0 2], 0, 0, 0, [], [], [],
        [("BootstrapMethods", [0, 0])]⟩ 1 0 2
      (by decide) rfl).2 [0, 0] [] ⟨[0, 0], 2⟩ rfl rfl (by decide)⟩

theorem padok_nil : PadOK [] := by
  intro j x h _
  simp at h

theorem padok_append_one {l : List CPItem} (hp : PadOK l) {x : CPItem}
    (hx : x.isWide = false) : PadOK (l ++ [x]) := by
  intro j y hy hw
  rcases Nat.lt_trichotomy j l.length with hj | hj | hj
  · rw [List.get?_append hj] at hy
    by_cases hj1 : j + 1 < l.length
    · rw [List.get?_append hj1]
      exact hp j y hy hw
    · have hnone : l.get? (j + 1) = none := List.get?_eq_none.mpr (by omega)
      have := hp j y hy hw
      rw [hnone] at this
      cases this
  · subst hj
    rw [List.get?_concat_length] at hy
    cases hy
    rw [hx] at hw
    cases hw
  · have hnone : (l ++ [x]).get? j = none := by
      rw [List.get?_eq_none]
      simp
      omega
    rw [hnone] at hy
    cases hy

theorem padok_append_wide {l : List CPItem} (hp : PadOK l) (x : CPItem) :
    PadOK (l ++ [x, .Skip]) := by
  intro j y hy hw
  rcases Nat.lt_trichotomy j l.length with hj | hj | hj
  · rw [List.get?_append hj] at hy
    by_cases hj1 : j + 1 < l.length
    · rw [List.get?_append hj1]
      exact hp j y hy hw
    · have hnone : l.get? (j + 1) = none := List.get?_eq_none.mpr (by omega)
      have := hp j y hy hw
      rw [hnone] at this
      cases this
  · subst hj
    rw [List.get?_append_right (Nat.le_succ_of_le (Nat.le_refl _))]
    have : l.length + 1 - l.length = 1 := by omega
    rw [this]
    rfl
  · rw [List.get?_append_right (by omega)] at hy
    have h2 : j - l.length = 1 ∨ 2 ≤ j - l.length := by omega
    rcases h2 with h2 | h2
    · rw [h2] at hy
      cases hy
      cases hw
    · have hnone : ([x, CPItem.Skip] : List CPItem).get? (j - l.length) = none :=
        List.get?_eq_none.mpr (by simp; omega)
      rw [hnone] at hy
      cases hy

theorem cpoolLoop_padok :
    ∀ (fuel count i : Nat) (acc : List CPItem) (s : RState)
      (pool : List CPItem) (s' : RState),
      PadOK acc → cpoolLoop fuel count i acc s = .ok (pool, s') →
      PadOK pool := by
  intro fuel
  induction fuel with
  | zero =>
    intro count i acc s pool s' hp h
    simp [cpoolLoop, dthrow] at h
  | succ n ih =>
    intro count i acc s pool s' hp h
    rw [cpoolLoop] at h
    by_cases hci : count ≤ i
    · rw [if_pos hci] at h
      obtain ⟨he, _⟩ := pure_ok h
      exact he ▸ hp
    · rw [if_neg hci] at h
      obtain ⟨pos, s1, hpos, h2⟩ := bind_ok h
      obtain ⟨item, s2, hitem, h3⟩ := bind_ok h2
      cases item <;>
        first
          | (simp [CPItem.isWide] at h3
             exact ih count (i + 2) _ s2 pool s' (padok_append_wide hp _) h3)
          | (simp [CPItem.isWide] at h3
             exact ih count (i + 1) _ s2 pool s' (padok_append_one hp (by rfl)) h3)
          | simp [dthrow] at h3

/-- C6: for every decoded constant pool, a `Long`/`Double` entry at
logical index `i` (vector position `j = i − 1`) is followed by the
synthetic `Skip` (Padding) marker at logical index `i + 1`, and resolving
logical index `i + 1` (= `j + 2`) through any typed index returns a
`ConstantPoolError` naming the `Skip` entry as the found variant — never
the value of the next real entry. -/
theorem c6_padding_never_aliased (bytes : List Nat) (pool : List CPItem)
    (s' : RState) (h : readConstantPool ⟨bytes, 0⟩ = .ok (pool, s'))
    (j : Nat) (x : CPItem) (hj : pool.get? j = some x)
    (hw : x.isWide = true) :
    pool.get? (j + 1) = some .Skip
    ∧ Utf8Index.get_as_string_impl pool (j + 2) =
        .err (.ConstantPoolError "Utf8" .Skip)
    ∧ ClassIndex.get_as_string_impl pool (j + 2) =
        .err (.ConstantPoolError "Class" .Skip)
    ∧ NameAndTypeIndex.get_as_string_impl pool (j + 2) =
        .err (.ConstantPoolError "NameAndType" .Skip)
    ∧ ConstantValue.int_value pool (j + 2) =
        .err (.ConstantPoolError "Integer" .Skip) := by
  have hpool : PadOK pool := by
    unfold readConstantPool at h
    obtain ⟨count, s1, hc, h2⟩ := bind_ok h
    exact cpoolLoop_padok (count + 1) count 1 [] s1 pool s' padok_nil h2
  have hskip : pool.get? (j + 1) = some .Skip := hpool j x hj hw
  have hlt : j + 2 - 1 < pool.length := (List.get?_eq_some.mp hskip).1
  have hcond : 1 ≤ j + 2 ∧ j + 2 - 1 < pool.length := ⟨by omega, hlt⟩
  have hskip2 : pool.get? (j + 2 - 1) = some CPItem.Skip := hskip
  have hentry : pool.get ⟨j + 2 - 1, hcond.2⟩ = .Skip := by
    have hg := List.get?_eq_get (l := pool) hcond.2
    rw [hg] at hskip2
    exact Option.some.inj hskip2
  refine ⟨hskip, ?_, ?_, ?_, ?_⟩
  · unfold Utf8Index.get_as_string_impl
    rw [dif_pos hcond, hentry]
  · unfold ClassIndex.get_as_string_impl
    rw [dif_pos hcond, hentry]
  · unfold NameAndTypeIndex.get_as_string_impl
    rw [dif_pos hcond, hentry]
  · unfold ConstantValue.int_value
    rw [dif_pos hcond, hentry]

/-- C6 witness: `c6_padding_never_aliased` on the decode of a pool
declaring a `Long` entry followed by an `Integer` entry. -/
theorem c6_witness :
    ([CPItem.Long 1, .Skip, .Integer 7] : List CPItem).get? (0 + 1) =
      some .Skip
    ∧ Utf8Index.get_as_string_impl [.Long 1, .Skip, .Integer 7] (0 + 2) =
        .err (.ConstantPoolError "Utf8" .Skip)
    ∧ ClassIndex.get_as_string_impl [.Long 1, .Skip, .Integer 7] (0 + 2) =
        .err (.ConstantPoolError "Class" .Skip)
    ∧ NameAndTypeIndex.get_as_string_impl [.Long 1, .Skip, .Integer 7]
        (0 + 2) = .err (.ConstantPoolError "NameAndType" .Skip)
    ∧ ConstantValue.int_value [.Long 1, .Skip, .Integer 7] (0 + 2) =
        .err (.ConstantPoolError "Integer" .Skip) :=
  c6_padding_never_aliased
    [0, 4, 5, 0, 0, 0, 0, 0, 0, 0, 1, 3, 0, 0, 0, 7]
    [.Long 1, .Skip, .Integer 7]
    ⟨[0, 4, 5, 0, 0, 0, 0, 0, 0, 0, 1, 3, 0, 0, 0, 7], 16⟩
    rfl 0 (.Long 1) rfl rfl

theorem readCPItemTagged_badTag (s : RState) (b : Nat)
    (hb : s.bytes.get? s.pos = some b) (hv : cpTagValid b = false) :
    readCPItemTagged s = .error .noVariant := by
  have h8 : readU8 s = .ok (b, ⟨s.bytes, s.pos + 1⟩) := by
    unfold readU8
    rw [hb]
  simp only [cpTagValid, Bool.or_eq_false_iff, beq_eq_false_iff_ne,
    ne_eq] at hv
  obtain ⟨⟨⟨⟨⟨⟨⟨⟨⟨⟨⟨⟨⟨⟨⟨⟨h7, h9⟩, h10⟩, h11⟩, h8b⟩, h3b⟩, h4b⟩, h5b⟩,
    h6b⟩, h12⟩, h1b⟩, h15⟩, h16⟩, h17⟩, h18⟩, h19⟩, h20⟩ := hv
  unfold readCPItemTagged
  rw [bind_apply, h8]
  simp only [if_neg h7, if_neg h9, if_neg h10, if_neg h11, if_neg h8b,
    if_neg h3b, if_neg h4b, if_neg h5b, if_neg h6b, if_neg h12,
    if_neg h1b, if_neg h15, if_neg h16, if_neg h17, if_neg h18,
    if_neg h19, if_neg h20, dthrow]

theorem readCPItemTagged_eof (s : RState)
    (hb : s.bytes.get? s.pos = none) : readCPItemTagged s = .error .eof := by
  have h8 : readU8 s = .error .eof := by
    unfold readU8
    rw [hb]
  unfold readCPItemTagged
  rw [bind_apply, h8]

theorem run_pool_step {α : Type} (k : Nat → CPItem → DecM α) (s : RState)
    (item : CPItem) (hitem : readCPItem s = .ok (item, s)) :
    (curPos >>= fun pos => readCPItem >>= fun it => k pos it) s =
      k s.pos item s := by
  show (readCPItem >>= fun it => k s.pos it) s = _
  rw [bind_apply, hitem]

/-- C7: a byte stream whose next constant-pool entry starts with an
unrecognized tag byte fails the whole pool decode with the fatal
"Invalid Constant Pool Item" assertion (the tagged variants all fail, the
magic-less `Skip` fallthrough fires, and the entry loop converts it to the
error — the entry is never stored, skipped, or retried); a stream that
ends before the declared entry count is reached fails the same way
(conjuncts for truncation at an entry boundary, truncation inside an
`Integer` payload, and the error propagating out of the whole
`ClassFile::read`). -/
theorem c7_bad_tag_and_truncation_abort (fuel count i : Nat)
    (acc : List CPItem) (s : RState) (b : Nat) (hfuel : 1 ≤ fuel)
    (hi : i < count) :
    (s.bytes.get? s.pos = some b → cpTagValid b = false →
      cpoolLoop fuel count i acc s = .error (.assertFail s.pos))
    ∧ (s.bytes.get? s.pos = none →
      cpoolLoop fuel count i acc s = .error (.assertFail s.pos))
    ∧ readConstantPool ⟨[0, 2, 3, 0, 1], 0⟩ = .error (.assertFail 2)
    ∧ readClassFile ⟨[0xCA, 0xFE, 0xBA, 0xBE, 0, 0, 0, 0, 0, 2, 2], 0⟩ =
        .error (.assertFail 10) := by
  obtain ⟨f, rfl⟩ : ∃ f, fuel = f + 1 := ⟨fuel - 1, by omega⟩
  refine ⟨?_, ?_, rfl, rfl⟩
  · intro hb hv
    have hskip : readCPItem s = .ok (.Skip, s) := by
      unfold readCPItem
      rw [readCPItemTagged_badTag s b hb hv]
    rw [cpoolLoop, if_neg (by omega)]
    rw [run_pool_step _ s .Skip hskip]
    rfl
  · intro hb
    have hskip : readCPItem s = .ok (.Skip, s) := by
      unfold readCPItem
      rw [readCPItemTagged_eof s hb]
    rw [cpoolLoop, if_neg (by omega)]
    rw [run_pool_step _ s .Skip hskip]
    rfl

/-- C7 witness: `c7_bad_tag_and_truncation_abort` at tag byte 2 (not a
constant-pool tag) and at an empty stream, one declared entry pending in
both. -/
theorem c7_witness :
    cpoolLoop 1 2 1 [] ⟨[2], 0⟩ = .error (.assertFail 0)
    ∧ cpoolLoop 1 2 1 [] ⟨[], 0⟩ = .error (.assertFail 0) :=
  ⟨(c7_bad_tag_and_truncation_abort 1 2 1 [] ⟨[2], 0⟩ 2 (by decide)
      (by decide)).1 rfl rfl,
   (c7_bad_tag_and_truncation_abort 1 2 1 [] ⟨[], 0⟩ 0 (by decide)
      (by decide)).2.1 rfl⟩

/-- C3: the signature grammar REJECTS
`"Ljava/util/List<Ljava/lang/String;>;"`: `TypeArgument::parse` accepts
only `+`/`-`-annotated references and the `*` wildcard (the enum has no
invariant variant), so the `<...>` argument list fails, `opt` backtracks,
the required `;` is not found at `<`, and `ReferenceType::parse` returns a
grammar error instead of the `ClassType` named `List` with one invariant
`String` argument that the claim describes.  A `+`-annotated argument
parses fine, isolating the missing invariant case. -/
theorem c3_signature_rejects_invariant_argument :
    ReferenceType.parse "Ljava/util/List<Ljava/lang/String;>;".toList =
      .error ()
    ∧ TypeArgument.parse "Ljava/lang/String;".toList = .error ()
    ∧ TypeArgument.parse "+Ljava/lang/String;".toList =
        .ok ([], .Plus .JavaString) :=
  ⟨rfl, rfl, rfl⟩

end JavaClassFormat
